import Mathlib

/-!
# Verification development for `ivanjabrony/lo_test`

A shallow embedding of

* `pkg/logger/logger.go` (the asynchronous logger: `NewAsync`, `AsyncLogger.Log`), as a
  transition system whose actions are the atomic steps of its goroutines,
* `internal/storage/taskStorage.go` (the in-memory task storage), as state-passing functions,
* `internal/model` (validation, filter, request and response structs, mapper), as functions,
* `internal/usecase/taskUsecase.go` and `internal/handler/taskHandler.go`, as functions over any
  implementation of the interface they call, the state of that implementation being passed
  along,

followed by theorems about them.  The fragments of Go's `fmt`, `time`, `strconv`, `net/url` and
`encoding/json` packages that this code calls are embedded with them.

Strings are Lean `String`s.  Go's `int` is modelled by `Int`: the only integers of the embedded
code are list lengths and counters bounded by them, so wrap-around plays no role.
-/

namespace LoTest

/-! ## Go library fragments used by the embedded code -/

/-- A wall-clock reading as `time.Now()` yields it, given by its civil fields (what
`Time.Date()` and `Time.Clock()` return). -/
structure Time where
  year : Int
  month : Nat
  day : Nat
  hour : Nat
  minute : Nat
  second : Nat
deriving DecidableEq, Repr

/-- The zero value `time.Time{}`: January 1, year 1, 00:00:00 UTC. -/
def Time.zero : Time := ⟨1, 1, 1, 0, 0, 0⟩

/-- The civil fields are in the ranges of Go's `Time.Date()` and `Time.Clock()`, and the year has
at most four digits (years 0 to 9999). -/
def Time.wellFormed (t : Time) : Prop :=
  0 ≤ t.year ∧ t.year ≤ 9999 ∧ 1 ≤ t.month ∧ t.month ≤ 12 ∧ 1 ≤ t.day ∧ t.day ≤ 31 ∧
    t.hour ≤ 23 ∧ t.minute ≤ 59 ∧ t.second ≤ 59

instance (t : Time) : Decidable t.wellFormed := by
  unfold Time.wellFormed
  infer_instance

/-- Go's `time.appendInt`: the decimal digits of `x`, preceded by a minus sign when `x` is
negative and zero-padded on the left to at least `width` digits. -/
def appendInt (x : Int) (width : Nat) : List Char :=
  let ds := Nat.toDigits 10 x.natAbs
  (if x < 0 then ['-'] else []) ++ (List.replicate (width - ds.length) '0' ++ ds)

/-- Go's `Time.Format` on the layout elements of the layout this repository uses
(`2006` year, `01` month, `02` day, `15` hour, `04` minute, `05` second); every other character of
the layout is copied. -/
def formatLayout (t : Time) : List Char → List Char
  | '2' :: '0' :: '0' :: '6' :: rest => appendInt t.year 4 ++ formatLayout t rest
  | '0' :: '1' :: rest => appendInt t.month 2 ++ formatLayout t rest
  | '0' :: '2' :: rest => appendInt t.day 2 ++ formatLayout t rest
  | '1' :: '5' :: rest => appendInt t.hour 2 ++ formatLayout t rest
  | '0' :: '4' :: rest => appendInt t.minute 2 ++ formatLayout t rest
  | '0' :: '5' :: rest => appendInt t.second 2 ++ formatLayout t rest
  | c :: rest => c :: formatLayout t rest
  | [] => []

/-- The method `time.Time.Format(layout)`. -/
def Time.Format (t : Time) (layout : String) : String :=
  String.mk (formatLayout t layout.data)

/-- An operand of a `fmt` call: a `string`, an `int`, or a value of any other type, which is
given by the name of its type and by its rendering under each verb character. -/
inductive Arg where
  | str (s : String)
  | int (n : Int)
  | other (typeName : String) (render : Char → String)

/-- Go's name of the operand's type. -/
def Arg.typeName : Arg → String
  | .str _ => "string"
  | .int _ => "int"
  | .other typeName _ => typeName

/-- The default (`%v`) rendering of an operand. -/
def Arg.value : Arg → String
  | .str s => s
  | .int n => toString n
  | .other _ render => render 'v'

/-- The rendering of an operand as `type=value`, as in `fmt`'s error forms. -/
def Arg.typed (a : Arg) : List Char :=
  a.typeName.data ++ '=' :: a.value.data

/-- One verb of `fmt` applied to one operand: `%v` on every operand, `%s` on strings, `%d` on
integers, any verb on an operand of another type as that operand renders it; a string or integer
under another verb gives `fmt`'s bad-verb form `%!c(type=value)`. -/
def formatVerb (c : Char) (a : Arg) : List Char :=
  match c, a with
  | 'v', a => a.value.data
  | 's', .str s => s.data
  | 'd', .int n => (toString n).data
  | c, .other _ render => (render c).data
  | c, a => '%' :: '!' :: c :: '(' :: (a.typed ++ [')'])

/-- The operands left over after the format is consumed: `%!(EXTRA type=value, ...)`. -/
def extraArgs : List Arg → List Char
  | [] => []
  | a :: as =>
    "%!(EXTRA ".data ++ a.typed ++ (as.map fun b => ", ".data ++ b.typed).flatten ++ [')']

/-- The loop of `fmt.Sprintf` over the format: `%%` is a percent sign, a verb consumes the next
operand (`%!c(MISSING)` when none is left), a trailing `%` gives `%!(NOVERB)`, other characters
are copied, and unused operands are reported at the end. -/
def doPrintf : List Char → List Arg → List Char
  | [], args => extraArgs args
  | ['%'], args => "%!(NOVERB)".data ++ extraArgs args
  | '%' :: '%' :: rest, args => '%' :: doPrintf rest args
  | '%' :: c :: rest, a :: as => formatVerb c a ++ doPrintf rest as
  | '%' :: c :: rest, [] => '%' :: '!' :: c :: "(MISSING)".data ++ doPrintf rest []
  | c :: rest, args => c :: doPrintf rest args

/-- The function `fmt.Sprintf(format, args...)` on the fragment of `fmt` that the embedded code
uses: the verbs `%v`, `%s` on strings, `%d` on integers, and `%%`, without flags, width or
precision.  Outside of this fragment (another verb on a string or an integer, a flag, a width)
the rendering is not that of `fmt`. -/
def Sprintf (format : String) (args : List Arg) : String :=
  String.mk (doPrintf format.data args)

/-! ## `pkg/logger/logger.go` -/

/-- The string that the goroutine of `AsyncLogger.Log` sends on the channel, `now` being what its
`time.Now()` returned. -/
def logLine (format : String) (info : List Arg) (now : Time) : String :=
  let time := now.Format "2006-01-02 15:04:05"
  let log := Sprintf format info
  Sprintf "[%v] == %v\n" [.str time, .str log]

/-- Where the worker goroutine of `NewAsync` is: in its `for`/`select` loop, or returned (its
deferred `wg.Done()` has run). -/
inductive WorkerPc where
  | running
  | exited
deriving DecidableEq, Repr

/-- Where the closer goroutine of `NewAsync` is: blocked in `wg.Wait()`, past it, or past
`close(in)`. -/
inductive CloserPc where
  | waiting
  | woken
  | closed
deriving DecidableEq, Repr

/-- Where the goroutine of one `Log` call is: at the send `al.in <- ...`, past it (before
`al.wg.Done()`), or finished. -/
inductive SenderPc where
  | sending
  | sent
  | finished
deriving DecidableEq, Repr

/-- The goroutine started by one `Log` call, with the string it sends. -/
structure Sender where
  record : String
  pc : SenderPc
deriving DecidableEq, Repr

/-- One call `w.Write([]byte(data))` of the worker: the bytes, the index of the `Log` call whose
goroutine sent them (`none` for the zero value read from a closed channel), and whether `Write`
returned a nil error. -/
structure WriteCall where
  data : String
  src : Option Nat
  ok : Bool
deriving DecidableEq, Repr

/-- The state of one `AsyncLogger` and its goroutines. -/
structure LoggerState where
  /-- whether `ctx.Done()` is closed -/
  ctxDone : Bool
  worker : WorkerPc
  /-- the counter of the `sync.WaitGroup` -/
  wg : Int
  closer : CloserPc
  /-- whether the channel `in` is closed -/
  inClosed : Bool
  /-- the goroutines of the `Log` calls, in call order -/
  senders : List Sender
  /-- the calls of `w.Write`, in order -/
  writes : List WriteCall
  /-- the number of `log.Printf("error while writing logs: ...")` calls -/
  reported : Nat
  /-- the message of the runtime panic that ended the process, if any -/
  panic : Option String
deriving DecidableEq, Repr

/-- The atomic steps of the logger's goroutines and of its environment. -/
inductive Action where
  /-- the context passed to `NewAsync` is cancelled -/
  | cancel
  /-- a call `Log(format, info...)`: `wg.Add(1)` and the start of its goroutine, which reads
  the clock (`now`) and formats the line -/
  | log (format : String) (info : List Arg) (now : Time)
  /-- the worker's `select` takes `data := <-in` from the goroutine of `Log` call `i`, and calls
  `w.Write`, which returns a nil error iff `writeOk` -/
  | workerRecv (i : Nat) (writeOk : Bool)
  /-- the worker's `select` takes `data := <-in` from the closed channel -/
  | workerRecvClosed (writeOk : Bool)
  /-- the worker's `select` takes `<-ctx.Done()`: `return`, then the deferred `wg.Done()` -/
  | workerReturn
  /-- the closer's `wg.Wait()` returns -/
  | closerWake
  /-- the closer's `close(in)` -/
  | closerClose
  /-- `al.wg.Done()` of the goroutine of `Log` call `i` -/
  | senderDone (i : Nat)
  /-- the send of the goroutine of `Log` call `i` finds the channel closed -/
  | senderPanic (i : Nat)

/-- The state right after `NewAsync(ctx, w)` returns: `wg.Add(1)` is done, the worker is in its
loop, the closer is in `wg.Wait()`, the unbuffered channel `in` is open. -/
def NewAsync : LoggerState :=
  { ctxDone := false, worker := .running, wg := 1, closer := .waiting, inClosed := false,
    senders := [], writes := [], reported := 0, panic := none }

/-- The method `wg.Done()`: the counter goes down by one; Go panics when it becomes negative.
(The misuse checks of `sync.WaitGroup` for an `Add` that races with `Wait` are not part of the
model; they can only fire after the counter has reached zero.) -/
def wgDone (s : LoggerState) : LoggerState :=
  if s.wg - 1 < 0 then { s with panic := some "sync: negative WaitGroup counter" }
  else { s with wg := s.wg - 1 }

/-- The worker's loop body after a receive: `w.Write([]byte(data))`, and `log.Printf` when it
returned an error; the worker stays in its loop either way. -/
def workerWrite (s : LoggerState) (data : String) (src : Option Nat) (writeOk : Bool) :
    LoggerState :=
  { s with
    writes := s.writes ++ [⟨data, src, writeOk⟩]
    reported := if writeOk then s.reported else s.reported + 1 }

/-- The method `Log(format, info...)`: `al.wg.Add(1)`, and the start of the goroutine that formats
the line and then waits to send it on `in`. -/
def AsyncLogger.Log (s : LoggerState) (format : String) (info : List Arg) (now : Time) :
    LoggerState :=
  { s with wg := s.wg + 1, senders := s.senders ++ [⟨logLine format info now, .sending⟩] }

/-- One step.  An action that the state does not enable leaves the state as it is, and so does
every action after a panic (the process is gone). -/
def step (s : LoggerState) (a : Action) : LoggerState :=
  if s.panic.isSome then s
  else
    match a with
    | .cancel => { s with ctxDone := true }
    | .log format info now => AsyncLogger.Log s format info now
    | .workerRecv i writeOk =>
      match s.worker, s.inClosed, s.senders[i]? with
      | .running, false, some ⟨r, .sending⟩ =>
        workerWrite { s with senders := s.senders.set i ⟨r, .sent⟩ } r (some i) writeOk
      | _, _, _ => s
    | .workerRecvClosed writeOk =>
      match s.worker, s.inClosed with
      | .running, true => workerWrite s "" none writeOk
      | _, _ => s
    | .workerReturn =>
      match s.worker, s.ctxDone with
      | .running, true => wgDone { s with worker := .exited }
      | _, _ => s
    | .closerWake =>
      if s.closer = .waiting ∧ s.wg = 0 then { s with closer := .woken } else s
    | .closerClose =>
      if s.closer = .woken then { s with closer := .closed, inClosed := true } else s
    | .senderDone i =>
      match s.senders[i]? with
      | some ⟨r, .sent⟩ => wgDone { s with senders := s.senders.set i ⟨r, .finished⟩ }
      | _ => s
    | .senderPanic i =>
      match s.inClosed, s.senders[i]? with
      | true, some ⟨_, .sending⟩ => { s with panic := some "send on closed channel" }
      | _, _ => s

/-- An execution: the actions taken one after another. -/
def run (s : LoggerState) (acts : List Action) : LoggerState :=
  acts.foldl step s

/-- The bytes passed to `w.Write`, in order, whether or not the call returned an error. -/
def LoggerState.output (s : LoggerState) : List String :=
  s.writes.map WriteCall.data

/-- The records in the output stream: the bytes of the `w.Write` calls that returned a nil
error, in order. -/
def LoggerState.delivered (s : LoggerState) : List String :=
  (s.writes.filter (fun w => w.ok)).map WriteCall.data

/-- The strings submitted by the `Log` calls, in call order. -/
def LoggerState.submitted (s : LoggerState) : List String :=
  s.senders.map Sender.record

/-- The indices of the `Log` calls whose lines were written, in the order of the writes. -/
def LoggerState.writeOrder (s : LoggerState) : List Nat :=
  s.writes.filterMap WriteCall.src

/-- The calls of `w.Write` that carried the line of the `Log` call with index `i`. -/
def LoggerState.writesOf (s : LoggerState) (i : Nat) : List WriteCall :=
  s.writes.filter (fun w => w.src = some i)

/-- The lines were written in the order of their `Log` calls. -/
def LoggerState.inCallOrder (s : LoggerState) : Prop :=
  s.writeOrder.Pairwise (· < ·)

instance (s : LoggerState) : Decidable s.inCallOrder := by
  unfold LoggerState.inCallOrder
  infer_instance

/-- Whether the goroutine of a `Log` call still holds its count of the `WaitGroup` (its
`wg.Done()` has not run). -/
def Sender.holdsCount (x : Sender) : Bool :=
  match x.pc with
  | .finished => false
  | _ => true

/-- The number of `Log` goroutines that still hold their count of the `WaitGroup`. -/
def LoggerState.pending (s : LoggerState) : Nat :=
  s.senders.countP Sender.holdsCount

/-- The line of the `Log` call with the given index (empty when there is none). -/
def recordOf (s : LoggerState) : Option Nat → String
  | some i => ((s.senders[i]?).map Sender.record).getD ""
  | none => ""

/-- The invariant of the logger's reachable states: the `WaitGroup` counter is the worker's count
plus the counts of the `Log` goroutines; the closer gets past `wg.Wait()` only after the worker
has returned; the channel is closed exactly when the closer has closed it; the worker returns
only after the cancellation; a panic happens only with the channel closed; every `Write` carries
the line of a distinct `Log` call whose goroutine is past its send, and every goroutine past its
send had its line passed to `Write`. -/
structure Inv (s : LoggerState) : Prop where
  wg_eq : s.wg = (if s.worker = .running then 1 else 0) + (s.pending : Int)
  closer_worker : s.closer ≠ .waiting → s.worker = .exited
  closed_iff : s.inClosed = true ↔ s.closer = .closed
  live_running : s.ctxDone = false → s.worker = .running
  panic_closed : s.panic ≠ none → s.inClosed = true
  src_sender : ∀ w ∈ s.writes, ∃ i pc,
    w.src = some i ∧ s.senders[i]? = some ⟨w.data, pc⟩ ∧ pc ≠ .sending
  src_nodup : (s.writes.map WriteCall.src).Nodup
  sent_written : ∀ i r pc, s.senders[i]? = some ⟨r, pc⟩ → pc ≠ .sending →
    some i ∈ s.writes.map WriteCall.src

/-! ## `internal/model` and `internal/storage/taskStorage.go` -/

/-- The struct `model.Task`; `TaskStatus` is a string type. -/
structure Task where
  Id : Int
  Status : String
  Name : String
  Description : String
  CreatedAt : Time
deriving DecidableEq, Repr

/-- The struct `model.Filter`. -/
structure Filter where
  Status : String
deriving DecidableEq, Repr

/-- The constant `storageName`. -/
def storageName : String := "TaskStorage"

/-- An operand passed to the storage's `Logger`. -/
inductive LogArg where
  | str (s : String)
  | task (t : Task)
deriving DecidableEq, Repr

/-- One call `logger.Log(format, info...)` made by the storage. -/
structure LogCall where
  format : String
  info : List LogArg
deriving DecidableEq, Repr

/-- The struct `TaskStorage`.  The field `logger` holds the calls its `Logger` has received.  The
mutex `m` is not a field: every method holds it from entry to exit, so the methods are atomic and
are embedded as functions from state to state. -/
structure TaskStorage where
  tasks : List Task
  idCounter : Int
  logger : List LogCall
deriving DecidableEq, Repr

/-- How a Go call ends: it returns its results, or it panics. -/
inductive Outcome (α : Type) where
  | returned (a : α)
  | panicked (msg : String)
deriving DecidableEq, Repr

/-- The constructor `NewTaskStorage(logger)`; its error result is always nil. -/
def NewTaskStorage : TaskStorage :=
  { tasks := [], idCounter := 0,
    logger := [⟨"Created %s successfully", [.str storageName]⟩] }

/-- The method `Store(ctx, task)`, `now` being what `time.Now()` returned: the new state and the
results `(id, err)` (`none` is the nil error). -/
def TaskStorage.Store (st : TaskStorage) (task : Task) (now : Time) :
    TaskStorage × (Int × Option String) :=
  let task := { task with Id := (st.tasks.length : Int) }
  let task := { task with CreatedAt := now }
  let st := { st with tasks := st.tasks ++ [task] }
  let st := { st with idCounter := st.idCounter + 1 }
  let st := { st with logger := st.logger ++ [⟨"Stored task: %v sucsessfully", [.task task]⟩] }
  (st, (task.Id, none))

/-- The method `GetAll(ctx, filter)`: the loop over `st.tasks` appends the matching tasks. -/
def TaskStorage.GetAll (st : TaskStorage) (filter : Filter) :
    TaskStorage × (List Task × Option String) :=
  let ans := st.tasks.foldl
    (fun ans task =>
      if filter.Status = "" ∨ task.Status = filter.Status then ans ++ [task] else ans) []
  (st, (ans, none))

/-- The method `GetByTaskId(ctx, TaskId)`: the results `(task, err)` (`none` is nil), or the
runtime panic of the index expression `st.tasks[TaskId]`. -/
def TaskStorage.GetByTaskId (st : TaskStorage) (TaskId : Int) :
    TaskStorage × Outcome (Option Task × Option String) :=
  if TaskId > st.idCounter ∨ TaskId < 0 then
    (st, .returned (none, some (Sprintf
      "%v: error while retrieving task by id(%v): nonexistent id" [.str storageName, .int TaskId])))
  else
    match st.tasks[TaskId.toNat]? with
    | some ans => (st, .returned (some ans, none))
    | none =>
      (st, .panicked (Sprintf "runtime error: index out of range [%d] with length %d"
        [.int TaskId, .int st.tasks.length]))

/-- A call of one of the storage's methods. -/
inductive StorageOp where
  | store (task : Task) (now : Time)
  | getAll (filter : Filter)
  | getByTaskId (TaskId : Int)
deriving DecidableEq, Repr

/-- What a call of one of the storage's methods gave back. -/
inductive OpResult where
  | stored (r : Int × Option String)
  | all (r : List Task × Option String)
  | byId (r : Outcome (Option Task × Option String))
deriving DecidableEq, Repr

/-- One call on the storage. -/
def applyOp (st : TaskStorage) : StorageOp → TaskStorage × OpResult
  | .store task now => ((st.Store task now).1, .stored (st.Store task now).2)
  | .getAll filter => ((st.GetAll filter).1, .all (st.GetAll filter).2)
  | .getByTaskId TaskId => ((st.GetByTaskId TaskId).1, .byId (st.GetByTaskId TaskId).2)

/-- A sequence of calls on the storage: the final state and the results in call order. -/
def runOps (st : TaskStorage) : List StorageOp → TaskStorage × List OpResult
  | [] => (st, [])
  | op :: ops =>
    ((runOps (applyOp st op).1 ops).1, (applyOp st op).2 :: (runOps (applyOp st op).1 ops).2)

/-- The results of the `Store` calls among a list of results. -/
def storeResults (rs : List OpResult) : List (Int × Option String) :=
  rs.filterMap fun r => match r with
    | .stored r => some r
    | _ => none

/-- The state after a sequence of `Store` calls on a new storage. -/
def storeAll (ts : List (Task × Time)) : TaskStorage :=
  (runOps NewTaskStorage (ts.map fun p => .store p.1 p.2)).1

/-- The counter and the list agree. -/
def counterOk (st : TaskStorage) : Prop := st.idCounter = (st.tasks.length : Int)

/-! ## `internal/model/validation.go`, `internal/model/filter.go`, `internal/model/dto`,
`internal/model/mapper/mapper.go` -/

/-- The constant `model.Created`. -/
def Created : String := "created"

/-- The constant `model.InProgress`. -/
def InProgress : String := "inProgress"

/-- The constant `model.Done`. -/
def Done : String := "done"

/-- The variable `model.EmptyFilter`, the zero `Filter`. -/
def EmptyFilter : Filter := { Status := "" }

/-- The function `model.ValidateTask`: `none` is the nil error, `some msg` the error made by
`errors.New(msg)`. -/
def ValidateTask (task : Task) : Option String :=
  if task.Id < 0 then
    some "invalid taskId in task: negative values are forbidden"
  else if task.Status = "" then
    some "invalid status in task: empty status is forbidden"
  else if task.Status ≠ Done ∧ task.Status ≠ InProgress ∧ task.Status ≠ Created then
    some "invalid status in task: unknown type"
  else
    none

/-- The function `model.ValidateFilter`. -/
def ValidateFilter (filter : Filter) : Option String :=
  if filter.Status ≠ Done ∧ filter.Status ≠ InProgress ∧ filter.Status ≠ Created then
    some "invalid status in filter: unknown type"
  else
    none

/-- The struct `dto.PostTaskRequest`. -/
structure PostTaskRequest where
  Status : String
  Name : String
  Description : String
deriving DecidableEq, Repr

/-- The struct `dto.GetAllTasksResponse`; a nil slice is the empty list. -/
structure GetAllTasksResponse where
  Amount : Int
  Tasks : List Task
deriving DecidableEq, Repr

/-- The struct `dto.GetTaskByIdResponse`. -/
structure GetTaskByIdResponse where
  Id : Int
  Status : String
  Name : String
  Description : String
  CreatedAt : Time
deriving DecidableEq, Repr

/-- The zero value `dto.GetAllTasksResponse{}`. -/
def GetAllTasksResponse.zero : GetAllTasksResponse := { Amount := 0, Tasks := [] }

/-- The zero value `dto.GetTaskByIdResponse{}`. -/
def GetTaskByIdResponse.zero : GetTaskByIdResponse :=
  { Id := 0, Status := "", Name := "", Description := "", CreatedAt := Time.zero }

/-- The function `mapper.PostTaskRequestToTask`. -/
def PostTaskRequestToTask (request : PostTaskRequest) : Task :=
  { Id := 0, Status := request.Status, Description := request.Description,
    Name := request.Name, CreatedAt := Time.zero }

/-- The function `mapper.TaskToGetTaskByIdReponse`. -/
def TaskToGetTaskByIdReponse (task : Task) : GetTaskByIdResponse :=
  { Id := task.Id, Status := task.Status, Description := task.Description, Name := task.Name,
    CreatedAt := task.CreatedAt }

/-- The function `mapper.TasksToGetAllTasksResponse`. -/
def TasksToGetAllTasksResponse (tasks : List Task) : GetAllTasksResponse :=
  { Amount := (tasks.length : Int), Tasks := tasks }

/-! ## `internal/usecase/taskUsecase.go` -/

/-- An operand of interface type `error`, given by its message: `%v`, `%s` and, in `Errorf`,
`%w` render it through its `Error()` method. -/
def errorArg (msg : String) : Arg :=
  .other "error" (fun _ => msg)

/-- The message of the error made by `fmt.Errorf(format, args...)`: `Errorf` formats as
`Sprintf` does, the verb `%w` rendering its error operand as `%v` does. -/
def Errorf (format : String) (args : List Arg) : String :=
  Sprintf format args

/-- The constant `usecaseName`. -/
def usecaseName : String := "TaskUsecase"

/-- The interface `usecase.TaskStorage`, implemented over a state `σ`: each method gives the
state after the call and how the call ended.  The results are `(id, err)`, `(tasks, err)` and
`(task, err)`, with `none` for nil. -/
structure usecase.TaskStorage (σ : Type) where
  Store : σ → Task → σ × Outcome (Int × Option String)
  GetAll : σ → Filter → σ × Outcome (List Task × Option String)
  GetByTaskId : σ → Int → σ × Outcome (Option Task × Option String)

/-- A call made through the interface `usecase.TaskStorage`. -/
inductive StorageCall where
  | store (task : Task)
  | getAll (filter : Filter)
  | getByTaskId (taskId : Int)
deriving DecidableEq, Repr

/-- An implementation of `usecase.TaskStorage` together with a record of the calls made on it:
every method notes its call and then does what the implementation does. -/
def usecase.TaskStorage.recorded {σ : Type} (impl : usecase.TaskStorage σ) :
    usecase.TaskStorage (σ × List StorageCall) where
  Store := fun s task => (((impl.Store s.1 task).1, s.2 ++ [.store task]), (impl.Store s.1 task).2)
  GetAll := fun s filter =>
    (((impl.GetAll s.1 filter).1, s.2 ++ [.getAll filter]), (impl.GetAll s.1 filter).2)
  GetByTaskId := fun s taskId =>
    (((impl.GetByTaskId s.1 taskId).1, s.2 ++ [.getByTaskId taskId]),
      (impl.GetByTaskId s.1 taskId).2)

/-- The struct `storage.TaskStorage` as an implementation of `usecase.TaskStorage`, `now` being
what `time.Now()` returns during the call. -/
def TaskStorage.impl (now : Time) : usecase.TaskStorage TaskStorage where
  Store := fun st task => ((st.Store task now).1, .returned (st.Store task now).2)
  GetAll := fun st filter => ((st.GetAll filter).1, .returned (st.GetAll filter).2)
  GetByTaskId := fun st taskId => st.GetByTaskId taskId

/-- The struct `TaskUsecase`: its storage. -/
structure TaskUsecase (σ : Type) where
  taskStorage : usecase.TaskStorage σ

/-- The method `TaskUsecase.Store(ctx, request)`, `s` being the state of the storage: the state
after the call and the results `(id, err)`. -/
def TaskUsecase.Store {σ : Type} (tu : TaskUsecase σ) (s : σ) (request : PostTaskRequest) :
    σ × Outcome (Int × Option String) :=
  let task := PostTaskRequestToTask request
  match ValidateTask task with
  | some err =>
    (s, .returned (-1, some (Errorf "%v: couldn't store the task: %w"
      [.str usecaseName, errorArg err])))
  | none =>
    match tu.taskStorage.Store s task with
    | (s', .returned (_, some err)) =>
      (s', .returned (-1, some (Errorf "%v: couldn't store the task: %w"
        [.str usecaseName, errorArg err])))
    | (s', .returned (id, none)) => (s', .returned (id, none))
    | (s', .panicked msg) => (s', .panicked msg)

/-- The method `TaskUsecase.GetAll(ctx, filter)`. -/
def TaskUsecase.GetAll {σ : Type} (tu : TaskUsecase σ) (s : σ) (filter : Filter) :
    σ × Outcome (GetAllTasksResponse × Option String) :=
  match tu.taskStorage.GetAll s filter with
  | (s', .returned (_, some err)) =>
    (s', .returned (GetAllTasksResponse.zero,
      some (Errorf "%v: couldn't get all the tasks: %w" [.str usecaseName, errorArg err])))
  | (s', .returned (tasks, none)) => (s', .returned (TasksToGetAllTasksResponse tasks, none))
  | (s', .panicked msg) => (s', .panicked msg)

/-- The method `TaskUsecase.GetByTaskId(ctx, taskId)`; `*task` on a nil task panics. -/
def TaskUsecase.GetByTaskId {σ : Type} (tu : TaskUsecase σ) (s : σ) (taskId : Int) :
    σ × Outcome (GetTaskByIdResponse × Option String) :=
  match tu.taskStorage.GetByTaskId s taskId with
  | (s', .returned (_, some err)) =>
    (s', .returned (GetTaskByIdResponse.zero,
      some (Errorf "%v: %w" [.str usecaseName, errorArg err])))
  | (s', .returned (some task, none)) => (s', .returned (TaskToGetTaskByIdReponse task, none))
  | (s', .returned (none, none)) =>
    (s', .panicked "runtime error: invalid memory address or nil pointer dereference")
  | (s', .panicked msg) => (s', .panicked msg)

/-! ## `internal/handler/taskHandler.go` -/

/-- A JSON value, as `encoding/json` reads it from a request body (numbers by their literal). -/
inductive Json where
  | null
  | bool (b : Bool)
  | number (literal : String)
  | string (s : String)
  | array (items : List Json)
  | object (members : List (String × Json))

/-- The name `encoding/json` gives to the kind of a JSON value in its errors. -/
def Json.kind : Json → String
  | .null => "null"
  | .bool _ => "bool"
  | .number _ => "number"
  | .string _ => "string"
  | .array _ => "array"
  | .object _ => "object"

/-- The error of `encoding/json` for a value that does not fit its target (an
`UnmarshalTypeError`), by its message. -/
def unmarshalTypeError (v : Json) (target : String) : String :=
  "json: cannot unmarshal " ++ v.kind ++ " into " ++ target

/-- The folding under which `encoding/json` compares a key with a field name: letters without
regard to case, and the two characters outside of ASCII that fold to an ASCII letter (U+017F to
`s`, U+212A to `k`). -/
def foldChar (c : Char) : Char :=
  if c = Char.ofNat 0x17F then 's' else if c = Char.ofNat 0x212A then 'k' else c.toLower

/-- One member of a JSON object decoded into a `dto.PostTaskRequest`: a key that names one of the
fields `status`, `name`, `description` (compared under `foldChar`) sets the field when its value
is a string, leaves it when the value is `null`, and otherwise leaves it and gives an error;
other keys are skipped. -/
def decodeMember (req : PostTaskRequest) (key : String) (v : Json) :
    PostTaskRequest × Option String :=
  let field := String.mk (key.data.map foldChar)
  if field = "status" ∨ field = "name" ∨ field = "description" then
    match v with
    | .string s =>
      if field = "status" then ({ req with Status := s }, none)
      else if field = "name" then ({ req with Name := s }, none)
      else ({ req with Description := s }, none)
    | .null => (req, none)
    | v =>
      (req, some (unmarshalTypeError v ("Go struct field PostTaskRequest." ++ field ++
        " of type " ++ (if field = "status" then "model.TaskStatus" else "string"))))
  else (req, none)

/-- The members of a JSON object decoded in turn; the error is the earliest one. -/
def decodeMembers (req : PostTaskRequest) (err : Option String) :
    List (String × Json) → PostTaskRequest × Option String
  | [] => (req, err)
  | (key, v) :: rest =>
    decodeMembers (decodeMember req key v).1 (err.orElse fun _ => (decodeMember req key v).2) rest

/-- The call `json.NewDecoder(r.Body).Decode(&postReq)` on a zero `postReq`: the request after
the call and the error returned.  The body is `none` when it does not hold a well-formed JSON
value; then nothing is stored.  `null` stores nothing and is no error; an object is decoded member
by member, a member of the wrong type being skipped while the others are still stored; any other
value stores nothing and is an error. -/
def Decode (body : Option Json) : PostTaskRequest × Option String :=
  match body with
  | none => (⟨"", "", ""⟩, some "json: the body is not a JSON value")
  | some .null => (⟨"", "", ""⟩, none)
  | some (.object members) => decodeMembers ⟨"", "", ""⟩ none members
  | some v => (⟨"", "", ""⟩, some (unmarshalTypeError v "Go value of type dto.PostTaskRequest"))

/-- The query of a request URL, `url.Values`: keys with their values. -/
abbrev Values := List (String × List String)

/-- The method `url.Values.Get(key)`: the first value of the key, or the empty string. -/
def Values.Get (v : Values) (key : String) : String :=
  match v.lookup key with
  | some (first :: _) => first
  | _ => ""

/-- The digit loop of `strconv.Atoi`: `none` at a byte that is not a decimal digit. -/
def atoiDigits : List Char → Nat → Option Nat
  | [], n => some n
  | ch :: rest, n =>
    if ch.isDigit then atoiDigits rest (n * 10 + (ch.toNat - '0'.toNat)) else none

/-- The function `strconv.Atoi` for the 64-bit `int`: `some n` when it returns `(n, nil)`, `none`
when it returns an error (no digits, a byte that is not a digit, or a value outside of
`-2^63 .. 2^63 - 1`). -/
def Atoi (s : String) : Option Int :=
  match s.data with
  | [] => none
  | '-' :: ds =>
    if ds = [] then none
    else (atoiDigits ds 0).bind fun n => if n ≤ 2 ^ 63 then some (-(n : Int)) else none
  | '+' :: ds =>
    if ds = [] then none
    else (atoiDigits ds 0).bind fun n => if n < 2 ^ 63 then some (n : Int) else none
  | ds => (atoiDigits ds 0).bind fun n => if n < 2 ^ 63 then some (n : Int) else none

/-- A numeral split into its sign (whether it starts with a minus sign) and what follows the
sign. -/
def numeralParts (p : String) : Bool × List Char :=
  match p.data with
  | '-' :: ds => (true, ds)
  | '+' :: ds => (false, ds)
  | ds => (false, ds)

/-- The string is a decimal integer: an optional sign followed by one or more decimal digits. -/
def DecimalInt (p : String) : Prop :=
  (numeralParts p).2 ≠ [] ∧ ∀ c ∈ (numeralParts p).2, c.isDigit = true

instance (p : String) : Decidable (DecimalInt p) := by
  unfold DecimalInt
  infer_instance

/-- The integer that a decimal integer denotes. -/
def decimalValue (p : String) : Int :=
  let n : Nat := (numeralParts p).2.foldl (fun n c => 10 * n + (c.toNat - 48)) 0
  if (numeralParts p).1 then -(n : Int) else (n : Int)

/-- The constant `handlerName`. -/
def handlerName : String := "TransactionHandler"

/-- The constant `http.StatusOK`. -/
def StatusOK : Int := 200

/-- The constant `http.StatusBadRequest`. -/
def StatusBadRequest : Int := 400

/-- The constant `http.StatusInternalServerError`. -/
def StatusInternalServerError : Int := 500

/-- The interface `handler.TaskUsecase`, implemented over a state `σ`. -/
structure handler.TaskUsecase (σ : Type) where
  Store : σ → PostTaskRequest → σ × Outcome (Int × Option String)
  GetAll : σ → Filter → σ × Outcome (GetAllTasksResponse × Option String)
  GetByTaskId : σ → Int → σ × Outcome (GetTaskByIdResponse × Option String)

/-- A call made through the interface `handler.TaskUsecase`. -/
inductive UsecaseCall where
  | store (request : PostTaskRequest)
  | getAll (filter : Filter)
  | getByTaskId (taskId : Int)
deriving DecidableEq, Repr

/-- An implementation of `handler.TaskUsecase` together with a record of the calls made on it. -/
def handler.TaskUsecase.recorded {σ : Type} (impl : handler.TaskUsecase σ) :
    handler.TaskUsecase (σ × List UsecaseCall) where
  Store := fun s request =>
    (((impl.Store s.1 request).1, s.2 ++ [.store request]), (impl.Store s.1 request).2)
  GetAll := fun s filter =>
    (((impl.GetAll s.1 filter).1, s.2 ++ [.getAll filter]), (impl.GetAll s.1 filter).2)
  GetByTaskId := fun s taskId =>
    (((impl.GetByTaskId s.1 taskId).1, s.2 ++ [.getByTaskId taskId]),
      (impl.GetByTaskId s.1 taskId).2)

/-- The struct `usecase.TaskUsecase` as an implementation of `handler.TaskUsecase`. -/
def TaskUsecase.impl {σ : Type} (tu : TaskUsecase σ) : handler.TaskUsecase σ where
  Store := tu.Store
  GetAll := tu.GetAll
  GetByTaskId := tu.GetByTaskId

/-- The value handed to `json.NewEncoder(w).Encode`: the map with the key `error`, an `int`, or
one of the response structs. -/
inductive Payload where
  | error (message : String)
  | id (n : Int)
  | allTasks (r : GetAllTasksResponse)
  | task (r : GetTaskByIdResponse)
deriving DecidableEq, Repr

/-- What a handler wrote to its `http.ResponseWriter`: the `Content-Type` header, the status
code, and as body the JSON encoding of the payload. -/
structure Response where
  contentType : String
  code : Int
  payload : Payload
deriving DecidableEq, Repr

/-- One call `logger.Log(format, info...)` made by a handler. -/
structure LoggerCall where
  format : String
  info : List Arg

/-- The effects of one call of a handler: the state of the usecase after it, the calls of the
logger, and the response written (a panic of the usecase leaves the handler before it
responds). -/
structure HandlerResult (σ : Type) where
  usecase : σ
  logs : List LoggerCall
  response : Outcome Response

/-- The function `respondWithJSON(w, code, payload)`. -/
def respondWithJSON (code : Int) (payload : Payload) : Response :=
  { contentType := "application/json", code := code, payload := payload }

/-- The function `respondWithError(logger, w, code, message)`: the call of the logger and the
response. -/
def respondWithError (code : Int) (message : String) : List LoggerCall × Response :=
  ([⟨"error in %v: %v", [.str handlerName, .str message]⟩],
    respondWithJSON code (.error message))

/-- The struct `TaskHandler`: its usecase. -/
structure TaskHandler (σ : Type) where
  taskUsecase : handler.TaskUsecase σ

/-- The method `HandlePostTask(w, r)`, `body` being the body of the request and `s` the state
of the usecase.  The error of `Decode` is not looked at. -/
def TaskHandler.HandlePostTask {σ : Type} (th : TaskHandler σ) (s : σ) (body : Option Json) :
    HandlerResult σ :=
  let postReq := (Decode body).1
  let unvalidatedTask : Task :=
    { Id := 0, Status := postReq.Status, Name := postReq.Name,
      Description := postReq.Description, CreatedAt := Time.zero }
  match ValidateTask unvalidatedTask with
  | some err =>
    { usecase := s
      logs := ⟨"error in error %v: error while task validation: %v",
          [.str handlerName, errorArg err]⟩ ::
        (respondWithError StatusBadRequest "invalid data in task").1
      response := .returned (respondWithError StatusBadRequest "invalid data in task").2 }
  | none =>
    match th.taskUsecase.Store s postReq with
    | (s', .returned (_, some _)) =>
      { usecase := s'
        logs := (respondWithError StatusInternalServerError "failed to store task").1
        response :=
          .returned (respondWithError StatusInternalServerError "failed to store task").2 }
    | (s', .returned (transactions, none)) =>
      { usecase := s', logs := [],
        response := .returned (respondWithJSON StatusOK (.id transactions)) }
    | (s', .panicked msg) => { usecase := s', logs := [], response := .panicked msg }

/-- The method `HandleGetAllTasks(w, r)`, `queryParams` being `r.URL.Query()`. -/
def TaskHandler.HandleGetAllTasks {σ : Type} (th : TaskHandler σ) (s : σ)
    (queryParams : Values) : HandlerResult σ :=
  let getAll := fun (filter : Filter) =>
    match th.taskUsecase.GetAll s filter with
    | (s', .returned (_, some err)) =>
      { usecase := s'
        logs := (respondWithError StatusInternalServerError "failed to retrieve tasks").1 ++
          [⟨"error in %v: %v", [.str handlerName, errorArg err]⟩]
        response :=
          .returned (respondWithError StatusInternalServerError "failed to retrieve tasks").2
        : HandlerResult σ }
    | (s', .returned (response, none)) =>
      { usecase := s', logs := [],
        response := .returned (respondWithJSON StatusOK (.allTasks response)) }
    | (s', .panicked msg) => { usecase := s', logs := [], response := .panicked msg }
  let typeParam := queryParams.Get "status"
  if typeParam ≠ "" then
    let unvalidatedFilter : Filter := { Status := typeParam }
    match ValidateFilter unvalidatedFilter with
    | some err =>
      { usecase := s
        logs := ⟨"error in error %v: error while filter validation: %v",
            [.str handlerName, errorArg err]⟩ ::
          (respondWithError StatusBadRequest "invalid task status in filter").1
        response :=
          .returned (respondWithError StatusBadRequest "invalid task status in filter").2 }
    | none => getAll unvalidatedFilter
  else getAll EmptyFilter

/-- The method `HandleGetTaskById(w, r)`, `taskIDParam` being `r.PathValue("task_id")`. -/
def TaskHandler.HandleGetTaskById {σ : Type} (th : TaskHandler σ) (s : σ)
    (taskIDParam : String) : HandlerResult σ :=
  if taskIDParam = "" then
    { usecase := s
      logs := (respondWithError StatusBadRequest "task_id wasn't provided").1
      response := .returned (respondWithError StatusBadRequest "task_id wasn't provided").2 }
  else
    match Atoi taskIDParam with
    | none =>
      { usecase := s
        logs := (respondWithError StatusBadRequest "invalid task_id parameter").1
        response := .returned (respondWithError StatusBadRequest "invalid task_id parameter").2 }
    | some taskId =>
      match th.taskUsecase.GetByTaskId s taskId with
      | (s', .returned (_, some _)) =>
        { usecase := s'
          logs := (respondWithError StatusInternalServerError "failed to retrieve task").1
          response :=
            .returned (respondWithError StatusInternalServerError "failed to retrieve task").2 }
      | (s', .returned (transactions, none)) =>
        { usecase := s', logs := [],
          response := .returned (respondWithJSON StatusOK (.task transactions)) }
      | (s', .panicked msg) => { usecase := s', logs := [], response := .panicked msg }

/-! ## The storage under the usecase -/

/-- Every stored task has its index in the list as its `Id`. -/
def idsOk (st : TaskStorage) : Prop :=
  ∀ (i : Nat) (t : Task), st.tasks[i]? = some t → t.Id = (i : Int)

/-- Every stored task has one of the three statuses. -/
def statusesOk (st : TaskStorage) : Prop :=
  ∀ t ∈ st.tasks, t.Status = "created" ∨ t.Status = "inProgress" ∨ t.Status = "done"

/-- The state of the storage after a sequence of `TaskUsecase.Store` calls on the usecase over a
new `TaskStorage`, each request with what `time.Now()` returns during its call. -/
def usecaseStoreAll (reqs : List (PostTaskRequest × Time)) : TaskStorage :=
  reqs.foldl (fun st p => ((TaskUsecase.mk (TaskStorage.impl p.2)).Store st p.1).1)
    NewTaskStorage

/-! ## Logger: lemmas on the formatting -/

theorem toDigitsCore_small (f n : Nat) (ds : List Char) (h : n < 10) :
    Nat.toDigitsCore 10 (f + 1) n ds = Nat.digitChar n :: ds := by
  simp [Nat.toDigitsCore, Nat.div_eq_of_lt h, Nat.mod_eq_of_lt h]

theorem toDigitsCore_large (f n : Nat) (ds : List Char) (h : 10 ≤ n) :
    Nat.toDigitsCore 10 (f + 1) n ds
      = Nat.toDigitsCore 10 f (n / 10) (Nat.digitChar (n % 10) :: ds) := by
  have h0 : n / 10 ≠ 0 := by omega
  simp [Nat.toDigitsCore, h0]

/-- The decimal digits of a number below 10000, given enough fuel, padded to four. -/
theorem toDigits_padded_four (n : Nat) (h : n < 10000) :
    List.replicate (4 - (Nat.toDigits 10 n).length) '0' ++ Nat.toDigits 10 n
      = [Nat.digitChar (n / 1000), Nat.digitChar (n / 100 % 10), Nat.digitChar (n / 10 % 10),
          Nat.digitChar (n % 10)] := by
  unfold Nat.toDigits
  by_cases h1 : n < 10
  · rw [toDigitsCore_small _ _ _ h1]
    have e1 : n / 1000 = 0 := by omega
    have e2 : n / 100 % 10 = 0 := by omega
    have e3 : n / 10 % 10 = 0 := by omega
    have e4 : n % 10 = n := by omega
    rw [e1, e2, e3, e4]
    rfl
  · rw [toDigitsCore_large _ _ _ (by omega)]
    obtain ⟨f, rfl⟩ : ∃ f, n = f + 1 := ⟨n - 1, by omega⟩
    by_cases h2 : f + 1 < 100
    · rw [toDigitsCore_small _ _ _ (by omega)]
      have e1 : (f + 1) / 1000 = 0 := by omega
      have e2 : (f + 1) / 100 % 10 = 0 := by omega
      have e3 : (f + 1) / 10 % 10 = (f + 1) / 10 := by omega
      rw [e1, e2, e3]
      rfl
    · rw [toDigitsCore_large _ _ _ (by omega)]
      obtain ⟨g, rfl⟩ : ∃ g, f = g + 1 := ⟨f - 1, by omega⟩
      by_cases h3 : g + 1 + 1 < 1000
      · rw [toDigitsCore_small _ _ _ (by omega)]
        have e1 : (g + 1 + 1) / 1000 = 0 := by omega
        have e2 : (g + 1 + 1) / 100 % 10 = (g + 1 + 1) / 10 / 10 := by omega
        rw [e1, e2]
        rfl
      · rw [toDigitsCore_large _ _ _ (by omega)]
        obtain ⟨k, rfl⟩ : ∃ k, g = k + 1 := ⟨g - 1, by omega⟩
        rw [toDigitsCore_small _ _ _ (by omega)]
        have e1 : (k + 1 + 1 + 1) / 1000 = (k + 1 + 1 + 1) / 10 / 10 / 10 := by omega
        have e2 : (k + 1 + 1 + 1) / 100 % 10 = (k + 1 + 1 + 1) / 10 / 10 % 10 := by omega
        rw [e1, e2]
        rfl

/-- The decimal digits of a number below 100, padded to two. -/
theorem toDigits_padded_two (n : Nat) (h : n < 100) :
    List.replicate (2 - (Nat.toDigits 10 n).length) '0' ++ Nat.toDigits 10 n
      = [Nat.digitChar (n / 10), Nat.digitChar (n % 10)] := by
  unfold Nat.toDigits
  by_cases h1 : n < 10
  · rw [toDigitsCore_small _ _ _ h1]
    have e1 : n / 10 = 0 := by omega
    have e4 : n % 10 = n := by omega
    rw [e1, e4]
    rfl
  · rw [toDigitsCore_large _ _ _ (by omega)]
    obtain ⟨f, rfl⟩ : ∃ f, n = f + 1 := ⟨n - 1, by omega⟩
    rw [toDigitsCore_small _ _ _ (by omega)]
    rfl

theorem appendInt_two (n : Nat) (h : n < 100) :
    appendInt (n : Int) 2 = [Nat.digitChar (n / 10), Nat.digitChar (n % 10)] := by
  unfold appendInt
  have hneg : ¬ ((n : Int) < 0) := by omega
  simp only [Int.natAbs_ofNat, if_neg hneg, List.nil_append]
  exact toDigits_padded_two n h

theorem appendInt_four (y : Int) (h0 : 0 ≤ y) (h : y ≤ 9999) :
    appendInt y 4
      = [Nat.digitChar (y.toNat / 1000), Nat.digitChar (y.toNat / 100 % 10),
          Nat.digitChar (y.toNat / 10 % 10), Nat.digitChar (y.toNat % 10)] := by
  unfold appendInt
  have hneg : ¬ (y < 0) := by omega
  have habs : y.natAbs = y.toNat := by omega
  simp only [if_neg hneg, List.nil_append, habs]
  exact toDigits_padded_four y.toNat (by omega)

/-- The layout of `Log` applied to a time: year, month, day, hour, minute, second through
`appendInt`, with the layout's separators. -/
theorem Format_layout (t : Time) :
    t.Format "2006-01-02 15:04:05"
      = String.mk (appendInt t.year 4 ++ '-' :: (appendInt t.month 2 ++ '-' ::
          (appendInt t.day 2 ++ ' ' :: (appendInt t.hour 2 ++ ':' ::
            (appendInt t.minute 2 ++ ':' :: appendInt t.second 2))))) := by
  simp [Time.Format, formatLayout]

/-- The outer `Sprintf` of `Log` on two strings. -/
theorem Sprintf_line (time log : String) :
    Sprintf "[%v] == %v\n" [.str time, .str log] = "[" ++ time ++ "] == " ++ log ++ "\n" := by
  apply String.ext
  simp [Sprintf, doPrintf, formatVerb, extraArgs, Arg.value]

/-! ## Logger: the invariant -/

theorem countP_set_of_get? {α : Type} (p : α → Bool) (l : List α) :
    ∀ (i : Nat) (x y : α), l[i]? = some x →
      (l.set i y).countP p + (if p x then 1 else 0) = l.countP p + (if p y then 1 else 0) := by
  induction l with
  | nil => intro i x y h; simp at h
  | cons a l ih =>
    intro i x y h
    cases i with
    | zero =>
      simp only [List.getElem?_cons_zero, Option.some.injEq] at h
      subst h
      simp only [List.set_cons_zero, List.countP_cons]
      omega
    | succ i =>
      simp only [List.getElem?_cons_succ] at h
      have := ih i x y h
      simp only [List.set_cons_succ, List.countP_cons]
      omega

theorem Inv_NewAsync : Inv NewAsync where
  wg_eq := by decide
  closer_worker := by decide
  closed_iff := by decide
  live_running := by decide
  panic_closed := by decide
  src_sender := by intro w hw; simp [NewAsync] at hw
  src_nodup := by simp [NewAsync]
  sent_written := by intro i r pc h; simp [NewAsync] at h

theorem get?_lt {α : Type} {l : List α} {i : Nat} {x : α} (h : l[i]? = some x) :
    i < l.length := by
  by_contra hn
  rw [List.getElem?_eq_none (by omega)] at h
  exact Option.noConfusion h

theorem Inv_log (s : LoggerState) (r : String) (h : Inv s) :
    Inv { s with wg := s.wg + 1, senders := s.senders ++ [Sender.mk r .sending] } where
  wg_eq := by
    have := h.wg_eq
    simp only [LoggerState.pending, List.countP_append, List.countP_singleton,
      Sender.holdsCount] at this ⊢
    split at this <;> simp_all
    all_goals omega
  closer_worker := h.closer_worker
  closed_iff := h.closed_iff
  live_running := h.live_running
  panic_closed := h.panic_closed
  src_sender := by
    intro w hw
    obtain ⟨i, pc, h1, h2, h3⟩ := h.src_sender w hw
    refine ⟨i, pc, h1, ?_, h3⟩
    show (s.senders ++ [⟨r, .sending⟩])[i]? = _
    rw [List.getElem?_append_left (get?_lt h2)]
    exact h2
  src_nodup := h.src_nodup
  sent_written := by
    intro i r' pc hi hpc
    have hi' : (s.senders ++ [⟨r, .sending⟩])[i]? = some ⟨r', pc⟩ := hi
    by_cases hlt : i < s.senders.length
    · rw [List.getElem?_append_left hlt] at hi'
      exact h.sent_written i r' pc hi' hpc
    · have hlen := get?_lt hi'
      simp only [List.length_append, List.length_singleton] at hlen
      have hie : i = s.senders.length := by omega
      subst hie
      simp at hi'
      exact absurd hi'.2.symm hpc

theorem Inv_recv (s : LoggerState) (i : Nat) (r : String) (ok : Bool) (h : Inv s)
    (hi : s.senders[i]? = some ⟨r, .sending⟩) :
    Inv (workerWrite { s with senders := s.senders.set i ⟨r, .sent⟩ } r (some i) ok) where
  wg_eq := by
    have := h.wg_eq
    have hc := countP_set_of_get? Sender.holdsCount s.senders i _ ⟨r, .sent⟩ hi
    simp only [Sender.holdsCount, if_true, Nat.add_right_cancel_iff] at hc
    simp only [LoggerState.pending, workerWrite] at this ⊢
    rw [hc]
    exact this
  closer_worker := h.closer_worker
  closed_iff := h.closed_iff
  live_running := h.live_running
  panic_closed := h.panic_closed
  src_sender := by
    intro w hw
    have hw' : w ∈ s.writes ++ [WriteCall.mk r (some i) ok] := hw
    rw [List.mem_append, List.mem_singleton] at hw'
    show ∃ j pc, w.src = some j ∧
      (s.senders.set i ⟨r, .sent⟩)[j]? = some ⟨w.data, pc⟩ ∧ _
    rcases hw' with hw' | hw'
    · obtain ⟨j, pc, h1, h2, h3⟩ := h.src_sender w hw'
      have hne : i ≠ j := by
        rintro rfl
        rw [hi] at h2
        simp only [Option.some.injEq, Sender.mk.injEq] at h2
        exact h3 h2.2.symm
      exact ⟨j, pc, h1, by rw [List.getElem?_set_ne hne]; exact h2, h3⟩
    · subst hw'
      refine ⟨i, .sent, rfl, ?_, by decide⟩
      rw [List.getElem?_set_self (get?_lt hi)]
  src_nodup := by
    show ((s.writes ++ [WriteCall.mk r (some i) ok]).map WriteCall.src).Nodup
    rw [List.map_append, List.map_singleton]
    refine List.Nodup.append h.src_nodup (List.nodup_singleton _) ?_
    intro x hx hx'
    rw [List.mem_singleton] at hx'
    subst hx'
    obtain ⟨w, hw, hsrc⟩ := List.mem_map.1 hx
    obtain ⟨j, pc, h1, h2, h3⟩ := h.src_sender w hw
    rw [hsrc] at h1
    simp only [Option.some.injEq] at h1
    subst h1
    rw [hi] at h2
    simp only [Option.some.injEq, Sender.mk.injEq] at h2
    exact h3 h2.2.symm
  sent_written := by
    intro j r' pc hj hpc
    have hj' : (s.senders.set i ⟨r, .sent⟩)[j]? = some ⟨r', pc⟩ := hj
    show some j ∈ (s.writes ++ [WriteCall.mk r (some i) ok]).map WriteCall.src
    rw [List.map_append, List.mem_append]
    by_cases hij : i = j
    · right
      subst hij
      simp
    · left
      rw [List.getElem?_set_ne hij] at hj'
      exact h.sent_written j r' pc hj' hpc

theorem pending_pos (s : LoggerState) (i : Nat) (x : Sender) (hi : s.senders[i]? = some x)
    (hx : x.holdsCount = true) : 0 < s.pending := by
  unfold LoggerState.pending
  rw [List.countP_pos_iff]
  exact ⟨x, List.getElem?_mem hi, hx⟩

theorem Inv_senderDone (s : LoggerState) (i : Nat) (r : String) (h : Inv s)
    (hi : s.senders[i]? = some ⟨r, .sent⟩) :
    Inv (wgDone { s with senders := s.senders.set i ⟨r, .finished⟩ }) := by
  have hc := countP_set_of_get? Sender.holdsCount s.senders i _ ⟨r, .finished⟩ hi
  simp only [Sender.holdsCount, if_true, Bool.false_eq_true, if_false, Nat.add_zero] at hc
  have hwg := h.wg_eq
  have hpos := pending_pos s i _ hi rfl
  have hge : ¬ (s.wg - 1 < 0) := by
    split at hwg <;> omega
  unfold wgDone
  rw [if_neg hge]
  refine ⟨?_, h.closer_worker, h.closed_iff, h.live_running, h.panic_closed, ?_,
    h.src_nodup, ?_⟩
  · simp only [LoggerState.pending] at hwg hpos ⊢
    rw [hwg]
    have : (List.countP Sender.holdsCount s.senders : Int)
        = (List.countP Sender.holdsCount (s.senders.set i ⟨r, .finished⟩) : Int) + 1 := by
      exact_mod_cast hc.symm
    rw [this]
    omega
  · intro w hw
    obtain ⟨j, pc, h1, h2, h3⟩ := h.src_sender w hw
    show ∃ j pc, w.src = some j ∧
      (s.senders.set i ⟨r, .finished⟩)[j]? = some ⟨w.data, pc⟩ ∧ _
    by_cases hij : i = j
    · subst hij
      rw [hi] at h2
      simp only [Option.some.injEq, Sender.mk.injEq] at h2
      refine ⟨i, .finished, h1, ?_, by decide⟩
      rw [List.getElem?_set_self (get?_lt hi), ← h2.1]
    · exact ⟨j, pc, h1, by rw [List.getElem?_set_ne hij]; exact h2, h3⟩
  · intro j r' pc hj hpc
    have hj' : (s.senders.set i ⟨r, .finished⟩)[j]? = some ⟨r', pc⟩ := hj
    by_cases hij : i = j
    · subst hij
      exact h.sent_written i r .sent hi (by decide)
    · rw [List.getElem?_set_ne hij] at hj'
      exact h.sent_written j r' pc hj' hpc

theorem Inv_workerReturn (s : LoggerState) (h : Inv s) (hw : s.worker = .running)
    (hd : s.ctxDone = true) :
    Inv (wgDone { s with worker := .exited }) := by
  have hwg := h.wg_eq
  rw [if_pos hw] at hwg
  have hge : ¬ (s.wg - 1 < 0) := by omega
  unfold wgDone
  rw [if_neg hge]
  refine ⟨?_, fun _ => rfl, h.closed_iff, fun hf => ?_, h.panic_closed, h.src_sender,
    h.src_nodup, h.sent_written⟩
  swap
  · have hf' : s.ctxDone = false := hf
    rw [hd] at hf'
    exact Bool.noConfusion hf'
  show s.wg - 1 = (if WorkerPc.exited = WorkerPc.running then 1 else 0) + (s.pending : Int)
  rw [if_neg (by decide)]
  omega

theorem Inv_closerWake (s : LoggerState) (h : Inv s) (hc : s.closer = .waiting)
    (hz : s.wg = 0) : Inv { s with closer := .woken } := by
  have hwg := h.wg_eq
  have hex : s.worker = .exited := by
    cases hwk : s.worker with
    | running => rw [hwk, hz] at hwg; simp at hwg; omega
    | exited => rfl
  refine ⟨h.wg_eq, fun _ => hex, ?_, h.live_running, h.panic_closed, h.src_sender, h.src_nodup,
    h.sent_written⟩
  show s.inClosed = true ↔ CloserPc.woken = CloserPc.closed
  have := h.closed_iff
  rw [hc] at this
  simp only [reduceCtorEq, iff_false] at this ⊢
  exact this

theorem Inv_closerClose (s : LoggerState) (h : Inv s) (hc : s.closer = .woken) :
    Inv { s with closer := .closed, inClosed := true } :=
  ⟨h.wg_eq, fun _ => h.closer_worker (by rw [hc]; decide), by simp, h.live_running,
    fun _ => rfl, h.src_sender, h.src_nodup, h.sent_written⟩

/-- While the worker is in its loop, the channel is open. -/
theorem Inv.open_of_running {s : LoggerState} (h : Inv s) (hw : s.worker = .running) :
    s.inClosed = false := by
  cases hc : s.inClosed with
  | false => rfl
  | true =>
    have h1 := h.closed_iff.1 hc
    have h2 := h.closer_worker (by rw [h1]; decide)
    rw [hw] at h2
    exact WorkerPc.noConfusion h2

theorem Inv_step (s : LoggerState) (a : Action) (h : Inv s) : Inv (step s a) := by
  unfold step
  split
  · exact h
  · cases a with
    | cancel => exact ⟨h.wg_eq, h.closer_worker, h.closed_iff, fun hf => Bool.noConfusion hf,
        h.panic_closed, h.src_sender, h.src_nodup, h.sent_written⟩
    | log format info now => exact Inv_log s _ h
    | workerRecv i ok =>
      simp only
      split
      · next r hw hc hi => exact Inv_recv s i r ok h hi
      · exact h
    | workerRecvClosed ok =>
      simp only
      split
      · next hw hc =>
        have := h.open_of_running hw
        rw [hc] at this
        exact Bool.noConfusion this
      · exact h
    | workerReturn =>
      simp only
      split
      · next hw hc => exact Inv_workerReturn s h hw hc
      · exact h
    | closerWake =>
      simp only
      split
      · next hc => exact Inv_closerWake s h hc.1 hc.2
      · exact h
    | closerClose =>
      simp only
      split
      · next hc => exact Inv_closerClose s h hc
      · exact h
    | senderDone i =>
      simp only
      split
      · next r hi => exact Inv_senderDone s i r h hi
      · exact h
    | senderPanic i =>
      simp only
      split
      · next r hc hi =>
        exact ⟨h.wg_eq, h.closer_worker, h.closed_iff, h.live_running, fun _ => hc,
          h.src_sender, h.src_nodup, h.sent_written⟩
      · exact h

theorem run_nil (s : LoggerState) : run s [] = s := rfl

theorem run_cons (s : LoggerState) (a : Action) (acts : List Action) :
    run s (a :: acts) = run (step s a) acts := rfl

theorem run_append (s : LoggerState) (acts more : List Action) :
    run s (acts ++ more) = run (run s acts) more := by
  simp [run, List.foldl_append]

theorem Inv_run (acts : List Action) : ∀ s : LoggerState, Inv s → Inv (run s acts) := by
  induction acts with
  | nil => intro s h; exact h
  | cons a acts ih => intro s h; exact ih _ (Inv_step s a h)

/-- Every state reached from `NewAsync` satisfies the invariant. -/
theorem Inv_reachable (acts : List Action) : Inv (run NewAsync acts) :=
  Inv_run acts _ Inv_NewAsync

/-! ## Logger: the write log -/

/-- A step leaves the write log as it is or appends one call to it. -/
theorem step_writes (s : LoggerState) (a : Action) :
    ∃ more, (step s a).writes = s.writes ++ more := by
  unfold step
  split
  · exact ⟨[], by simp⟩
  · cases a with
    | cancel => exact ⟨[], by simp⟩
    | log format info now => exact ⟨[], by simp [AsyncLogger.Log]⟩
    | workerRecv i ok =>
      simp only
      split
      · exact ⟨_, rfl⟩
      · exact ⟨[], by simp⟩
    | workerRecvClosed ok =>
      simp only
      split
      · exact ⟨_, rfl⟩
      · exact ⟨[], by simp⟩
    | workerReturn =>
      simp only
      split
      · refine ⟨[], ?_⟩
        unfold wgDone
        split <;> simp
      · exact ⟨[], by simp⟩
    | closerWake =>
      simp only
      split <;> exact ⟨[], by simp⟩
    | closerClose =>
      simp only
      split <;> exact ⟨[], by simp⟩
    | senderDone i =>
      simp only
      split
      · refine ⟨[], ?_⟩
        unfold wgDone
        split <;> simp
      · exact ⟨[], by simp⟩
    | senderPanic i =>
      simp only
      split <;> exact ⟨[], by simp⟩

/-- What has been written stays written, in place. -/
theorem run_writes (acts : List Action) :
    ∀ s : LoggerState, ∃ more, (run s acts).writes = s.writes ++ more := by
  induction acts with
  | nil => intro s; exact ⟨[], by simp [run]⟩
  | cons a acts ih =>
    intro s
    obtain ⟨m1, h1⟩ := step_writes s a
    obtain ⟨m2, h2⟩ := ih (step s a)
    exact ⟨m1 ++ m2, by rw [run_cons, h2, h1, List.append_assoc]⟩

/-- Once the worker has returned, no step writes and the worker stays returned. -/
theorem step_exited (s : LoggerState) (a : Action) (h : s.worker = .exited) :
    (step s a).worker = .exited ∧ (step s a).writes = s.writes := by
  unfold step
  split
  · exact ⟨h, rfl⟩
  · cases a with
    | cancel => exact ⟨h, rfl⟩
    | log format info now => exact ⟨h, rfl⟩
    | workerRecv i ok =>
      simp only
      split
      · next hw _ _ => rw [h] at hw; exact WorkerPc.noConfusion hw
      · exact ⟨h, rfl⟩
    | workerRecvClosed ok =>
      simp only
      split
      · next hw _ => rw [h] at hw; exact WorkerPc.noConfusion hw
      · exact ⟨h, rfl⟩
    | workerReturn =>
      simp only
      split
      · next hw _ => rw [h] at hw; exact WorkerPc.noConfusion hw
      · exact ⟨h, rfl⟩
    | closerWake =>
      simp only
      split <;> exact ⟨h, rfl⟩
    | closerClose =>
      simp only
      split <;> exact ⟨h, rfl⟩
    | senderDone i =>
      simp only
      split
      · unfold wgDone
        split <;> exact ⟨h, rfl⟩
      · exact ⟨h, rfl⟩
    | senderPanic i =>
      simp only
      split <;> exact ⟨h, rfl⟩

theorem run_exited (acts : List Action) :
    ∀ s : LoggerState, s.worker = .exited →
      (run s acts).worker = .exited ∧ (run s acts).writes = s.writes := by
  induction acts with
  | nil => intro s h; exact ⟨h, rfl⟩
  | cons a acts ih =>
    intro s h
    obtain ⟨h1, h2⟩ := step_exited s a h
    obtain ⟨h3, h4⟩ := ih (step s a) h1
    exact ⟨h3, by rw [run_cons, h4, h2]⟩

/-- In a state satisfying the invariant, no panic has happened while the worker is in its
loop. -/
theorem Inv.no_panic_of_running {s : LoggerState} (h : Inv s) (hw : s.worker = .running) :
    s.panic = none := by
  by_contra hp
  have := h.panic_closed hp
  rw [h.open_of_running hw] at this
  exact Bool.noConfusion this

/-- The receive of the worker from a goroutine waiting to send, with the worker in its loop. -/
theorem step_workerRecv (s : LoggerState) (i : Nat) (r : String) (ok : Bool)
    (hp : s.panic = none) (hw : s.worker = .running) (hc : s.inClosed = false)
    (hi : s.senders[i]? = some ⟨r, .sending⟩) :
    step s (.workerRecv i ok)
      = workerWrite { s with senders := s.senders.set i ⟨r, .sent⟩ } r (some i) ok := by
  unfold step
  rw [hp]
  simp only [Option.isSome_none, Bool.false_eq_true, if_false]
  rw [hw, hc, hi]

/-- The step of a `Log` call. -/
theorem step_log (s : LoggerState) (format : String) (info : List Arg) (now : Time)
    (hp : s.panic = none) :
    step s (.log format info now) = AsyncLogger.Log s format info now := by
  unfold step
  rw [hp]
  simp only [Option.isSome_none, Bool.false_eq_true, if_false]

/-- The records of a list of goroutines, read off by index. -/
theorem map_range_record (l : List Sender) :
    (List.range l.length).map (fun i => ((l[i]?).map Sender.record).getD "")
      = l.map Sender.record := by
  apply List.ext_getElem
  · simp
  · intro n h1 h2
    simp only [List.length_map, List.length_range] at h1
    simp [List.getElem?_eq_getElem h1]

theorem Inv.output_eq {s : LoggerState} (h : Inv s) :
    s.output = (s.writes.map WriteCall.src).map (recordOf s) := by
  unfold LoggerState.output
  rw [List.map_map]
  apply List.map_congr_left
  intro w hw
  obtain ⟨i, pc, h1, h2, _⟩ := h.src_sender w hw
  simp [recordOf, h1, h2]

theorem submitted_eq (s : LoggerState) :
    s.submitted = ((List.range s.senders.length).map some).map (recordOf s) := by
  unfold LoggerState.submitted
  rw [List.map_map, ← map_range_record]
  rfl

theorem Inv.src_subset {s : LoggerState} (h : Inv s) :
    s.writes.map WriteCall.src ⊆ (List.range s.senders.length).map some := by
  intro o ho
  obtain ⟨w, hw, rfl⟩ := List.mem_map.1 ho
  obtain ⟨i, pc, h1, h2, _⟩ := h.src_sender w hw
  rw [h1]
  exact List.mem_map.2 ⟨i, List.mem_range.2 (get?_lt h2), rfl⟩

/-- The written lines are, with multiplicity, among the submitted ones. -/
theorem Inv.output_subperm {s : LoggerState} (h : Inv s) : s.output.Subperm s.submitted := by
  rw [h.output_eq, submitted_eq]
  obtain ⟨l, hp, hs⟩ := List.subperm_of_subset h.src_nodup h.src_subset
  exact ⟨l.map (recordOf s), hp.map _, hs.map _⟩

/-- When no goroutine is waiting to send, the written lines are the submitted ones, each once. -/
theorem Inv.output_perm {s : LoggerState} (h : Inv s)
    (hall : ∀ x ∈ s.senders, x.pc ≠ .sending) : s.output.Perm s.submitted := by
  rw [h.output_eq, submitted_eq]
  refine List.Perm.map _ ?_
  refine List.Subperm.antisymm (List.subperm_of_subset h.src_nodup h.src_subset) ?_
  refine List.subperm_of_subset ?_ ?_
  · exact (List.nodup_range _).map (fun a b hab => by simpa using hab)
  · intro o ho
    obtain ⟨i, hi, rfl⟩ := List.mem_map.1 ho
    have hlt := List.mem_range.1 hi
    have hget : s.senders[i]? = some ⟨(s.senders[i]).record, (s.senders[i]).pc⟩ :=
      List.getElem?_eq_getElem hlt
    exact h.sent_written i _ _ hget (hall _ (List.getElem_mem hlt))

theorem filter_src_length_le_one (l : List WriteCall) (o : Option Nat)
    (h : (l.map WriteCall.src).Nodup) :
    (l.filter (fun w => w.src = o)).length ≤ 1 := by
  induction l with
  | nil => simp
  | cons a l ih =>
    rw [List.map_cons, List.nodup_cons] at h
    by_cases ha : a.src = o
    · have hnil : l.filter (fun w => w.src = o) = [] := by
        rw [List.filter_eq_nil_iff]
        intro w hw
        simp only [decide_eq_true_eq]
        intro hwo
        exact h.1 (List.mem_map.2 ⟨w, hw, by rw [hwo, ha]⟩)
      simp [List.filter_cons, ha, hnil]
    · simpa [List.filter_cons, ha] using ih h.2

/-- No `Log` call has more than one `Write`. -/
theorem Inv.writesOf_le_one {s : LoggerState} (h : Inv s) (i : Nat) :
    (s.writesOf i).length ≤ 1 :=
  filter_src_length_le_one s.writes (some i) h.src_nodup

/-- A goroutine past its send has exactly one `Write`, and it carries the goroutine's line. -/
theorem Inv.writesOf_received {s : LoggerState} (h : Inv s) (i : Nat) (r : String)
    (pc : SenderPc) (hi : s.senders[i]? = some ⟨r, pc⟩) (hpc : pc ≠ .sending) :
    ∃ ok, s.writesOf i = [⟨r, some i, ok⟩] := by
  obtain ⟨w, hw, hsrc⟩ := List.mem_map.1 (h.sent_written i r pc hi hpc)
  have hmem : w ∈ s.writesOf i := by
    unfold LoggerState.writesOf
    rw [List.mem_filter]
    exact ⟨hw, by simp [hsrc]⟩
  have hle := h.writesOf_le_one i
  obtain ⟨j, pc', h1, h2, _⟩ := h.src_sender w hw
  have hji : j = i := by
    rw [hsrc] at h1
    exact (Option.some.inj h1).symm
  subst hji
  rw [hi] at h2
  have hdata : w.data = r := by
    simp only [Option.some.injEq, Sender.mk.injEq] at h2
    exact h2.1.symm
  have hw_eq : w = ⟨r, some j, w.ok⟩ := by
    cases w with
    | mk data src ok =>
      simp only at hsrc hdata
      rw [hsrc, hdata]
  refine ⟨w.ok, ?_⟩
  cases hl : s.writesOf j with
  | nil => rw [hl] at hmem; exact absurd hmem (List.not_mem_nil w)
  | cons a l =>
    rw [hl] at hmem hle
    cases l with
    | nil =>
      rw [List.mem_singleton] at hmem
      rw [← hmem, ← hw_eq]
    | cons b l =>
      simp only [List.length_cons] at hle
      omega

/-- A goroutine still waiting to send has no `Write`. -/
theorem Inv.writesOf_pending {s : LoggerState} (h : Inv s) (i : Nat) (r : String)
    (hi : s.senders[i]? = some ⟨r, .sending⟩) : s.writesOf i = [] := by
  unfold LoggerState.writesOf
  rw [List.filter_eq_nil_iff]
  intro w hw hsrc
  simp only [decide_eq_true_eq] at hsrc
  obtain ⟨j, pc, h1, h2, h3⟩ := h.src_sender w hw
  rw [hsrc] at h1
  have hji : j = i := (Option.some.inj h1).symm
  subst hji
  rw [hi] at h2
  simp only [Option.some.injEq, Sender.mk.injEq] at h2
  exact h3 h2.2.symm

/-- When every `Write` returned a nil error, the output stream holds the bytes of all `Write`
calls. -/
theorem delivered_eq_output (s : LoggerState) (h : ∀ w ∈ s.writes, w.ok = true) :
    s.delivered = s.output := by
  unfold LoggerState.delivered LoggerState.output
  rw [List.filter_eq_self.2 h]

/-! ## Storage: lemmas -/

@[simp] theorem Store_tasks (st : TaskStorage) (task : Task) (now : Time) :
    (TaskStorage.Store st task now).1.tasks
      = st.tasks ++ [{ task with Id := (st.tasks.length : Int), CreatedAt := now }] := rfl

@[simp] theorem Store_idCounter (st : TaskStorage) (task : Task) (now : Time) :
    (TaskStorage.Store st task now).1.idCounter = st.idCounter + 1 := rfl

@[simp] theorem Store_result (st : TaskStorage) (task : Task) (now : Time) :
    (TaskStorage.Store st task now).2 = ((st.tasks.length : Int), none) := rfl

@[simp] theorem GetAll_state (st : TaskStorage) (filter : Filter) :
    (TaskStorage.GetAll st filter).1 = st := rfl

@[simp] theorem GetByTaskId_state (st : TaskStorage) (TaskId : Int) :
    (TaskStorage.GetByTaskId st TaskId).1 = st := by
  unfold TaskStorage.GetByTaskId
  split
  · rfl
  · split <;> rfl

theorem counterOk_new : counterOk NewTaskStorage := rfl

theorem counterOk_applyOp (st : TaskStorage) (op : StorageOp) (h : counterOk st) :
    counterOk (applyOp st op).1 := by
  cases op with
  | store task now =>
    simp only [applyOp, counterOk, Store_idCounter, Store_tasks, List.length_append,
      List.length_singleton, Nat.cast_add, Nat.cast_one]
    rw [h]
  | getAll filter => simpa [applyOp] using h
  | getByTaskId TaskId => simpa [applyOp] using h

theorem counterOk_runOps (ops : List StorageOp) :
    ∀ st : TaskStorage, counterOk st → counterOk (runOps st ops).1 := by
  induction ops with
  | nil => intro st h; exact h
  | cons op ops ih => intro st h; exact ih _ (counterOk_applyOp st op h)

theorem applyOp_tasks (st : TaskStorage) (op : StorageOp) :
    ∃ extra, (applyOp st op).1.tasks = st.tasks ++ extra := by
  cases op with
  | store task now => exact ⟨_, Store_tasks st task now⟩
  | getAll filter => exact ⟨[], by simp [applyOp]⟩
  | getByTaskId TaskId => exact ⟨[], by simp [applyOp]⟩

theorem runOps_tasks (ops : List StorageOp) :
    ∀ st : TaskStorage, ∃ extra, (runOps st ops).1.tasks = st.tasks ++ extra := by
  induction ops with
  | nil => intro st; exact ⟨[], by simp [runOps]⟩
  | cons op ops ih =>
    intro st
    obtain ⟨e1, h1⟩ := applyOp_tasks st op
    obtain ⟨e2, h2⟩ := ih (applyOp st op).1
    exact ⟨e1 ++ e2, by simp only [runOps, h2, h1, List.append_assoc]⟩

theorem storeAll_tasks_length (ts : List (Task × Time)) :
    (storeAll ts).tasks.length = ts.length := by
  have key : ∀ (ts : List (Task × Time)) (st : TaskStorage),
      (runOps st (ts.map fun p => .store p.1 p.2)).1.tasks.length
        = st.tasks.length + ts.length := by
    intro ts
    induction ts with
    | nil => intro st; simp [runOps]
    | cons p ts ih =>
      intro st
      simp only [List.map_cons, runOps, applyOp, ih, Store_tasks, List.length_append,
        List.length_singleton, List.length_cons, List.length_nil]
      omega
  simpa [storeAll, NewTaskStorage] using key ts NewTaskStorage

theorem storeAll_counterOk (ts : List (Task × Time)) : counterOk (storeAll ts) :=
  counterOk_runOps _ _ counterOk_new

theorem GetAll_loop (p : Task → Prop) [DecidablePred p] (l : List Task) :
    ∀ acc : List Task,
      l.foldl (fun ans task => if p task then ans ++ [task] else ans) acc
        = acc ++ l.filter (fun task => decide (p task)) := by
  induction l with
  | nil => intro acc; simp
  | cons a l ih =>
    intro acc
    by_cases h : p a
    · simp [List.foldl_cons, ih, h, List.filter_cons]
    · simp [List.foldl_cons, ih, h, List.filter_cons]

/-- For an id below zero or above the counter, `GetByTaskId` returns a nil task and the
"nonexistent id" error. -/
theorem GetByTaskId_rejects (st : TaskStorage) (TaskId : Int)
    (h : TaskId > st.idCounter ∨ TaskId < 0) :
    TaskStorage.GetByTaskId st TaskId = (st, .returned (none, some (Sprintf
      "%v: error while retrieving task by id(%v): nonexistent id"
      [.str storageName, .int TaskId]))) := by
  unfold TaskStorage.GetByTaskId
  rw [if_pos h]

/-! ## Validation, usecase and handler: lemmas -/

/-- The message of the error with which `TaskUsecase.Store` wraps an error. -/
theorem Errorf_store (e : String) :
    Errorf "%v: couldn't store the task: %w" [.str usecaseName, errorArg e]
      = "TaskUsecase: couldn't store the task: " ++ e := by
  apply String.ext
  simp [Errorf, Sprintf, doPrintf, formatVerb, extraArgs, Arg.value, errorArg, usecaseName]

/-- The message of the error with which `TaskUsecase.GetAll` wraps an error. -/
theorem Errorf_getAll (e : String) :
    Errorf "%v: couldn't get all the tasks: %w" [.str usecaseName, errorArg e]
      = "TaskUsecase: couldn't get all the tasks: " ++ e := by
  apply String.ext
  simp [Errorf, Sprintf, doPrintf, formatVerb, extraArgs, Arg.value, errorArg, usecaseName]

/-- A status is one of the three statuses of a task. -/
theorem ValidateTask_eq_none_iff (task : Task) :
    ValidateTask task = none ↔
      0 ≤ task.Id ∧ (task.Status = "created" ∨ task.Status = "inProgress" ∨
        task.Status = "done") := by
  unfold ValidateTask Done InProgress Created
  constructor
  · intro h
    split_ifs at h with h1 h2 h3
    refine ⟨by omega, ?_⟩
    by_contra hne
    exact h3 ⟨fun e => hne (Or.inr (Or.inr e)), fun e => hne (Or.inr (Or.inl e)),
      fun e => hne (Or.inl e)⟩
  · rintro ⟨h0, hs⟩
    have h1 : ¬ task.Id < 0 := by omega
    have h2 : ¬ task.Status = "" := by
      rcases hs with hs | hs | hs <;> rw [hs] <;> decide
    have h3 : ¬ (task.Status ≠ "done" ∧ task.Status ≠ "inProgress" ∧ task.Status ≠ "created") := by
      rintro ⟨a, b, c⟩
      rcases hs with hs | hs | hs
      · exact c hs
      · exact b hs
      · exact a hs
    rw [if_neg h1, if_neg h2, if_neg h3]

theorem ValidateFilter_eq_none_iff (filter : Filter) :
    ValidateFilter filter = none ↔
      (filter.Status = "created" ∨ filter.Status = "inProgress" ∨ filter.Status = "done") := by
  unfold ValidateFilter Done InProgress Created
  constructor
  · intro h
    split_ifs at h with h3
    by_contra hne
    exact h3 ⟨fun e => hne (Or.inr (Or.inr e)), fun e => hne (Or.inr (Or.inl e)),
      fun e => hne (Or.inl e)⟩
  · intro hs
    have h3 : ¬ (filter.Status ≠ "done" ∧ filter.Status ≠ "inProgress" ∧
        filter.Status ≠ "created") := by
      rintro ⟨a, b, c⟩
      rcases hs with hs | hs | hs
      · exact c hs
      · exact b hs
      · exact a hs
    rw [if_neg h3]

/-- In a state whose counter agrees with its list, `GetByTaskId` at the index of a stored task
returns that task and a nil error. -/
theorem GetByTaskId_of_stored (st : TaskStorage) (i : Nat) (t : Task) (hok : counterOk st)
    (hi : st.tasks[i]? = some t) :
    st.GetByTaskId (i : Int) = (st, .returned (some t, none)) := by
  have hlt := get?_lt hi
  unfold TaskStorage.GetByTaskId
  rw [if_neg (by rw [hok]; omega)]
  simp only [Int.toNat_ofNat, hi]

/-- The digit loop of `Atoi` succeeds exactly on digits, with the value of the numeral. -/
theorem atoiDigits_eq_some_iff (ds : List Char) :
    ∀ (acc n : Nat), atoiDigits ds acc = some n ↔
      (∀ c ∈ ds, c.isDigit = true) ∧ n = ds.foldl (fun n c => 10 * n + (c.toNat - 48)) acc := by
  induction ds with
  | nil =>
    intro acc n
    unfold atoiDigits
    simp only [List.not_mem_nil, false_implies, implies_true, true_and, List.foldl_nil,
      Option.some.injEq]
    exact eq_comm
  | cons ch rest ih =>
    intro acc n
    unfold atoiDigits
    by_cases hd : ch.isDigit = true
    · rw [if_pos hd, ih]
      have h48 : '0'.toNat = 48 := rfl
      simp only [List.mem_cons, forall_eq_or_imp, hd, true_and, List.foldl_cons, h48,
        Nat.mul_comm acc 10]
    · rw [if_neg hd]
      simp only [List.mem_cons, forall_eq_or_imp, hd, false_and, reduceCtorEq]

/-- The function `Atoi` by the sign and the digits of its argument. -/
theorem Atoi_eq (p : String) :
    Atoi p =
      if (numeralParts p).2 = [] then none
      else (atoiDigits (numeralParts p).2 0).bind fun n =>
        if (numeralParts p).1 then (if n ≤ 2 ^ 63 then some (-(n : Int)) else none)
        else (if n < 2 ^ 63 then some (n : Int) else none) := by
  unfold Atoi numeralParts
  split
  · next h => simp only [h, if_true]
  · next ds h => simp only [h, if_true]
  · next ds h =>
    simp only [h]
    by_cases hds : ds = []
    · simp only [hds, if_true]
    · simp only [hds, if_false, Bool.false_eq_true]
  · next ds hnil hminus hplus =>
    simp only [Bool.false_eq_true, if_false]
    rw [if_neg hnil]

/-- What `Atoi` accepts: the decimal integers whose value is in the range of `int`. -/
theorem Atoi_eq_some_iff (p : String) (n : Int) :
    Atoi p = some n ↔
      DecimalInt p ∧ decimalValue p = n ∧ -(2 : Int) ^ 63 ≤ n ∧ n < (2 : Int) ^ 63 := by
  rw [Atoi_eq]
  unfold DecimalInt decimalValue
  generalize (numeralParts p).2 = ds
  generalize (numeralParts p).1 = neg
  by_cases hds : ds = []
  · rw [if_pos hds]
    constructor
    · intro h; exact Option.noConfusion h
    · rintro ⟨⟨h, _⟩, _⟩; exact absurd hds h
  · rw [if_neg hds]
    cases hd : atoiDigits ds 0 with
    | none =>
      rw [Option.none_bind]
      constructor
      · intro h; exact Option.noConfusion h
      · rintro ⟨⟨_, hall⟩, _⟩
        have := (atoiDigits_eq_some_iff ds 0 _).2 ⟨hall, rfl⟩
        rw [hd] at this
        exact Option.noConfusion this
    | some m =>
      obtain ⟨hall, hm⟩ := (atoiDigits_eq_some_iff ds 0 m).1 hd
      rw [Option.some_bind, ← hm]
      have hpow : (2 : Int) ^ 63 = 9223372036854775808 := by norm_num
      have hpow' : (2 : Nat) ^ 63 = 9223372036854775808 := by norm_num
      rw [hpow, hpow']
      cases neg with
      | true =>
        simp only [if_true]
        constructor
        · intro h
          split_ifs at h with hle
          simp only [Option.some.injEq] at h
          subst h
          exact ⟨⟨hds, hall⟩, rfl, by omega, by omega⟩
        · rintro ⟨_, rfl, h1, _⟩
          rw [if_pos (by omega)]
      | false =>
        simp only [Bool.false_eq_true, if_false]
        constructor
        · intro h
          split_ifs at h with hle
          simp only [Option.some.injEq] at h
          subst h
          exact ⟨⟨hds, hall⟩, rfl, by omega, by omega⟩
        · rintro ⟨_, rfl, _, h2⟩
          rw [if_pos (by omega)]

/-- The method `TaskUsecase.Store` on a request that `ValidateTask` rejects: the storage is left
alone. -/
theorem TaskUsecase_Store_rejected {σ : Type} (tu : TaskUsecase σ) (s : σ)
    (request : PostTaskRequest) (msg : String)
    (h : ValidateTask (PostTaskRequestToTask request) = some msg) :
    tu.Store s request
      = (s, .returned (-1, some ("TaskUsecase: couldn't store the task: " ++ msg))) := by
  unfold TaskUsecase.Store
  simp only [h, Errorf_store]

/-- The method `TaskUsecase.Store` on a request that `ValidateTask` accepts: one call of the
storage's `Store`, whose outcome decides the results. -/
theorem TaskUsecase_Store_accepted {σ : Type} (tu : TaskUsecase σ) (s : σ)
    (request : PostTaskRequest) (h : ValidateTask (PostTaskRequestToTask request) = none) :
    tu.Store s request
      = ((tu.taskStorage.Store s (PostTaskRequestToTask request)).1,
          match (tu.taskStorage.Store s (PostTaskRequestToTask request)).2 with
          | .returned (_, some e) =>
            .returned (-1, some ("TaskUsecase: couldn't store the task: " ++ e))
          | .returned (id, none) => .returned (id, none)
          | .panicked m => .panicked m) := by
  unfold TaskUsecase.Store
  simp only [h]
  rcases hst : tu.taskStorage.Store s (PostTaskRequestToTask request) with ⟨s', out⟩
  rcases out with ⟨id, _ | e⟩ | m
  · rfl
  · simp only [Errorf_store]
  · rfl

/-- The method `TaskUsecase.GetAll`: one call of the storage's `GetAll` with the same filter,
whose outcome decides the results. -/
theorem TaskUsecase_GetAll_eq {σ : Type} (tu : TaskUsecase σ) (s : σ) (filter : Filter) :
    tu.GetAll s filter
      = ((tu.taskStorage.GetAll s filter).1,
          match (tu.taskStorage.GetAll s filter).2 with
          | .returned (_, some e) =>
            .returned (GetAllTasksResponse.zero,
              some ("TaskUsecase: couldn't get all the tasks: " ++ e))
          | .returned (ts, none) => .returned ({ Amount := (ts.length : Int), Tasks := ts }, none)
          | .panicked m => .panicked m) := by
  unfold TaskUsecase.GetAll
  rcases hst : tu.taskStorage.GetAll s filter with ⟨s', out⟩
  rcases out with ⟨ts, _ | e⟩ | m
  · rfl
  · simp only [Errorf_getAll]
  · rfl

/-- A request with a status that is none of the three statuses is rejected by `ValidateTask`. -/
theorem ValidateTask_request_invalid (request : PostTaskRequest)
    (h : ¬ (request.Status = "created" ∨ request.Status = "inProgress" ∨
      request.Status = "done")) :
    ValidateTask (PostTaskRequestToTask request)
      = some (if request.Status = "" then "invalid status in task: empty status is forbidden"
          else "invalid status in task: unknown type") := by
  have hne : ValidateTask (PostTaskRequestToTask request) ≠ none := fun e =>
    h ((ValidateTask_eq_none_iff _).1 e).2
  unfold ValidateTask at hne ⊢
  have h0 : ¬ (PostTaskRequestToTask request).Id < 0 := by
    show ¬ ((0 : Int) < 0)
    omega
  rw [if_neg h0] at hne ⊢
  have hs : (PostTaskRequestToTask request).Status = request.Status := rfl
  rw [hs] at hne ⊢
  by_cases he : request.Status = ""
  · rw [if_pos he, if_pos he]
  · rw [if_neg he] at hne ⊢
    rw [if_neg he]
    split_ifs at hne ⊢ with h3
    · rfl
    · exact absurd rfl hne

/-- A request with one of the three statuses is accepted by `ValidateTask`. -/
theorem ValidateTask_request_valid (request : PostTaskRequest)
    (h : request.Status = "created" ∨ request.Status = "inProgress" ∨
      request.Status = "done") :
    ValidateTask (PostTaskRequestToTask request) = none :=
  (ValidateTask_eq_none_iff _).2 ⟨le_refl _, h⟩

/-- The handler `HandlePostTask` on a body whose decoded request `ValidateTask` rejects. -/
theorem HandlePostTask_rejected {σ : Type} (th : TaskHandler σ) (s : σ) (body : Option Json)
    (h : ValidateTask (Task.mk 0 (Decode body).1.Status (Decode body).1.Name
      (Decode body).1.Description Time.zero) ≠ none) :
    (th.HandlePostTask s body).usecase = s ∧
      (th.HandlePostTask s body).response
        = .returned ⟨"application/json", 400, .error "invalid data in task"⟩ := by
  unfold TaskHandler.HandlePostTask
  simp only
  split
  · exact ⟨rfl, rfl⟩
  · next hv => exact absurd hv h

/-- The handler `HandlePostTask` on a body whose decoded request `ValidateTask` accepts. -/
theorem HandlePostTask_accepted {σ : Type} (th : TaskHandler σ) (s : σ) (body : Option Json)
    (h : ValidateTask (Task.mk 0 (Decode body).1.Status (Decode body).1.Name
      (Decode body).1.Description Time.zero) = none) :
    (th.HandlePostTask s body).usecase = (th.taskUsecase.Store s (Decode body).1).1 ∧
      (th.HandlePostTask s body).response
        = (match (th.taskUsecase.Store s (Decode body).1).2 with
          | .returned (_, some _) =>
            .returned ⟨"application/json", 500, .error "failed to store task"⟩
          | .returned (id, none) => .returned ⟨"application/json", 200, .id id⟩
          | .panicked m => .panicked m) := by
  unfold TaskHandler.HandlePostTask
  simp only [h]
  rcases hst : th.taskUsecase.Store s (Decode body).1 with ⟨s', out⟩
  rcases out with ⟨id, _ | e⟩ | m <;> exact ⟨rfl, rfl⟩

/-- A body that is not a JSON value, or is a JSON value other than an object, decodes to the
zero request, which `HandlePostTask` rejects. -/
theorem HandlePostTask_not_object {σ : Type} (th : TaskHandler σ) (s : σ) (body : Option Json)
    (h : ∀ members, body ≠ some (.object members)) :
    (th.HandlePostTask s body).usecase = s ∧
      (th.HandlePostTask s body).response
        = .returned ⟨"application/json", 400, .error "invalid data in task"⟩ := by
  apply HandlePostTask_rejected
  have hz : (Decode body).1 = ⟨"", "", ""⟩ := by
    unfold Decode
    split
    · rfl
    · rfl
    · next members => exact absurd rfl (h members)
    · rfl
  rw [hz]
  decide

/-- The handler `HandleGetAllTasks` when it reaches the usecase with the filter `filter`. -/
theorem HandleGetAllTasks_called {σ : Type} (th : TaskHandler σ) (s : σ) (queryParams : Values)
    (filter : Filter)
    (h : (queryParams.Get "status" = "" ∧ filter = EmptyFilter) ∨
      (queryParams.Get "status" ≠ "" ∧ ValidateFilter ⟨queryParams.Get "status"⟩ = none ∧
        filter = ⟨queryParams.Get "status"⟩)) :
    (th.HandleGetAllTasks s queryParams).usecase = (th.taskUsecase.GetAll s filter).1 ∧
      (th.HandleGetAllTasks s queryParams).response
        = (match (th.taskUsecase.GetAll s filter).2 with
          | .returned (_, some _) =>
            .returned ⟨"application/json", 500, .error "failed to retrieve tasks"⟩
          | .returned (r, none) => .returned ⟨"application/json", 200, .allTasks r⟩
          | .panicked m => .panicked m) := by
  unfold TaskHandler.HandleGetAllTasks
  rcases h with ⟨he, rfl⟩ | ⟨hne, hv, rfl⟩
  · simp only [he, ne_eq, not_true_eq_false, if_false]
    rcases hst : th.taskUsecase.GetAll s EmptyFilter with ⟨s', out⟩
    rcases out with ⟨r, _ | e⟩ | m <;> exact ⟨rfl, rfl⟩
  · simp only [ne_eq, hne, not_false_eq_true, if_true, hv]
    rcases hst : th.taskUsecase.GetAll s ⟨queryParams.Get "status"⟩ with ⟨s', out⟩
    rcases out with ⟨r, _ | e⟩ | m <;> exact ⟨rfl, rfl⟩

/-- The handler `HandleGetAllTasks` on a status that `ValidateFilter` rejects. -/
theorem HandleGetAllTasks_rejected {σ : Type} (th : TaskHandler σ) (s : σ)
    (queryParams : Values) (hne : queryParams.Get "status" ≠ "")
    (hv : ValidateFilter ⟨queryParams.Get "status"⟩ ≠ none) :
    (th.HandleGetAllTasks s queryParams).usecase = s ∧
      (th.HandleGetAllTasks s queryParams).response
        = .returned ⟨"application/json", 400, .error "invalid task status in filter"⟩ := by
  unfold TaskHandler.HandleGetAllTasks
  simp only [ne_eq, hne, not_false_eq_true, if_true]
  split
  · exact ⟨rfl, rfl⟩
  · next h => exact absurd h hv

/-- The handler `HandleGetTaskById` on a parameter that `Atoi` accepts. -/
theorem HandleGetTaskById_called {σ : Type} (th : TaskHandler σ) (s : σ) (p : String)
    (taskId : Int) (h : Atoi p = some taskId) :
    (th.HandleGetTaskById s p).usecase = (th.taskUsecase.GetByTaskId s taskId).1 ∧
      (th.HandleGetTaskById s p).response
        = (match (th.taskUsecase.GetByTaskId s taskId).2 with
          | .returned (_, some _) =>
            .returned ⟨"application/json", 500, .error "failed to retrieve task"⟩
          | .returned (r, none) => .returned ⟨"application/json", 200, .task r⟩
          | .panicked m => .panicked m) := by
  have hne : p ≠ "" := by
    rintro rfl
    exact Option.noConfusion (h.symm.trans (by decide : Atoi "" = none))
  unfold TaskHandler.HandleGetTaskById
  rw [if_neg hne]
  simp only [h]
  rcases hst : th.taskUsecase.GetByTaskId s taskId with ⟨s', out⟩
  rcases out with ⟨r, _ | e⟩ | m <;> exact ⟨rfl, rfl⟩

/-- The handler `HandleGetTaskById` on a non-empty parameter that `Atoi` rejects. -/
theorem HandleGetTaskById_rejected {σ : Type} (th : TaskHandler σ) (s : σ) (p : String)
    (hne : p ≠ "") (h : Atoi p = none) :
    (th.HandleGetTaskById s p).usecase = s ∧
      (th.HandleGetTaskById s p).response
        = .returned ⟨"application/json", 400, .error "invalid task_id parameter"⟩ := by
  unfold TaskHandler.HandleGetTaskById
  rw [if_neg hne, h]
  exact ⟨rfl, rfl⟩

/-- The handler `HandleGetTaskById` on the empty parameter. -/
theorem HandleGetTaskById_empty {σ : Type} (th : TaskHandler σ) (s : σ) :
    (th.HandleGetTaskById s "").usecase = s ∧
      (th.HandleGetTaskById s "").response
        = .returned ⟨"application/json", 400, .error "task_id wasn't provided"⟩ := by
  unfold TaskHandler.HandleGetTaskById
  rw [if_pos rfl]
  exact ⟨rfl, rfl⟩

/-! ## The storage under the usecase: lemmas -/

theorem idsOk_new : idsOk NewTaskStorage := by
  intro i t h
  simp [NewTaskStorage] at h

theorem idsOk_applyOp (st : TaskStorage) (op : StorageOp) (h : idsOk st) :
    idsOk (applyOp st op).1 := by
  cases op with
  | store task now =>
    intro i t hi
    have hi' : (st.tasks ++ [{ task with Id := (st.tasks.length : Int), CreatedAt := now }])[i]?
        = some t := hi
    by_cases hlt : i < st.tasks.length
    · rw [List.getElem?_append_left hlt] at hi'
      exact h i t hi'
    · have hlen := get?_lt hi'
      simp only [List.length_append, List.length_singleton] at hlen
      have hie : i = st.tasks.length := by omega
      subst hie
      rw [List.getElem?_append_right (le_refl _)] at hi'
      simp only [Nat.sub_self, List.getElem?_cons_zero, Option.some.injEq] at hi'
      rw [← hi']
  | getAll filter => simpa [applyOp] using h
  | getByTaskId TaskId => simpa [applyOp] using h

theorem idsOk_runOps (ops : List StorageOp) :
    ∀ st : TaskStorage, idsOk st → idsOk (runOps st ops).1 := by
  induction ops with
  | nil => intro st h; exact h
  | cons op ops ih => intro st h; exact ih _ (idsOk_applyOp st op h)

/-- The method `TaskUsecase.Store` over the real storage, on a request with a valid status: the
task is stored and the id is the number of tasks stored before. -/
theorem usecase_Store_valid (st : TaskStorage) (now : Time) (request : PostTaskRequest)
    (h : request.Status = "created" ∨ request.Status = "inProgress" ∨
      request.Status = "done") :
    (TaskUsecase.mk (TaskStorage.impl now)).Store st request
      = ((st.Store (PostTaskRequestToTask request) now).1,
          .returned ((st.tasks.length : Int), none)) := by
  rw [TaskUsecase_Store_accepted _ st request (ValidateTask_request_valid request h)]
  rfl

/-- The method `TaskUsecase.Store` over the real storage, on a request with another status: the
storage is left as it is and the error is that of the validation. -/
theorem usecase_Store_invalid (st : TaskStorage) (now : Time) (request : PostTaskRequest)
    (h : ¬ (request.Status = "created" ∨ request.Status = "inProgress" ∨
      request.Status = "done")) :
    (TaskUsecase.mk (TaskStorage.impl now)).Store st request
      = (st, .returned (-1, some ("TaskUsecase: couldn't store the task: " ++
          (if request.Status = "" then "invalid status in task: empty status is forbidden"
            else "invalid status in task: unknown type")))) :=
  TaskUsecase_Store_rejected _ st request _ (ValidateTask_request_invalid request h)

theorem statusesOk_usecase_Store (st : TaskStorage) (now : Time) (request : PostTaskRequest)
    (h : statusesOk st) :
    statusesOk ((TaskUsecase.mk (TaskStorage.impl now)).Store st request).1 := by
  by_cases hv : request.Status = "created" ∨ request.Status = "inProgress" ∨
      request.Status = "done"
  · rw [usecase_Store_valid st now request hv]
    intro t ht
    have ht' : t ∈ st.tasks ++ [{ PostTaskRequestToTask request with
        Id := (st.tasks.length : Int), CreatedAt := now }] := ht
    rw [List.mem_append, List.mem_singleton] at ht'
    rcases ht' with ht' | ht'
    · exact h t ht'
    · rw [ht']
      exact hv
  · rw [usecase_Store_invalid st now request hv]
    exact h

theorem statusesOk_usecaseStoreAll (reqs : List (PostTaskRequest × Time)) :
    statusesOk (usecaseStoreAll reqs) := by
  have key : ∀ (reqs : List (PostTaskRequest × Time)) (st : TaskStorage), statusesOk st →
      statusesOk (reqs.foldl
        (fun st p => ((TaskUsecase.mk (TaskStorage.impl p.2)).Store st p.1).1) st) := by
    intro reqs
    induction reqs with
    | nil => intro st h; exact h
    | cons p reqs ih =>
      intro st h
      exact ih _ (statusesOk_usecase_Store st p.2 p.1 h)
  exact key reqs _ (fun t ht => by simp [NewTaskStorage] at ht)

/-- The result of `GetAll`, as a filter of the stored tasks. -/
theorem GetAll_tasks (st : TaskStorage) (filter : Filter) :
    (st.GetAll filter).2.1
      = st.tasks.filter
          (fun task => decide (filter.Status = "" ∨ task.Status = filter.Status)) := by
  simp only [TaskStorage.GetAll]
  rw [GetAll_loop (fun task => filter.Status = "" ∨ task.Status = filter.Status)]
  simp

/-- In a list of tasks with the three statuses, the tasks of each status add up to the list. -/
theorem filter_statuses_length (l : List Task)
    (h : ∀ t ∈ l, t.Status = "created" ∨ t.Status = "inProgress" ∨ t.Status = "done") :
    (l.filter (fun t => decide (t.Status = "created"))).length
      + (l.filter (fun t => decide (t.Status = "inProgress"))).length
      + (l.filter (fun t => decide (t.Status = "done"))).length = l.length := by
  induction l with
  | nil => rfl
  | cons a l ih =>
    have ih' := ih (fun t ht => h t (List.mem_cons_of_mem a ht))
    have ha := h a (List.mem_cons_self a l)
    have h1 : ("created" : String) ≠ "inProgress" := by decide
    have h2 : ("created" : String) ≠ "done" := by decide
    have h3 : ("inProgress" : String) ≠ "done" := by decide
    rcases ha with ha | ha | ha
    · simp only [List.filter_cons, ha, decide_True, if_true, List.length_cons, h1, h2,
        decide_False, Bool.false_eq_true, if_false]
      omega
    · simp only [List.filter_cons, ha, decide_True, if_true, List.length_cons, h1.symm, h3,
        decide_False, Bool.false_eq_true, if_false]
      omega
    · simp only [List.filter_cons, ha, decide_True, if_true, List.length_cons, h2.symm,
        h3.symm, decide_False, Bool.false_eq_true, if_false]
      omega

/-! ## Logger: the claims -/

/-- C1 (the code departs from it): a `Log` call made after the channel was closed makes its
goroutine send on the closed channel, which panics.  After cancellation the worker returns, the
`WaitGroup` counter reaches zero, the closer closes `in`; the `Log` call that follows (or that
falls between the closer's `wg.Wait()` and its `close(in)`) ends in the runtime panic
"send on closed channel". -/
theorem C1_Log_after_close_panics (format : String) (info : List Arg) (now : Time) :
    (run NewAsync [.cancel, .workerReturn, .closerWake, .closerClose]).inClosed = true ∧
    (run NewAsync [.cancel, .workerReturn, .closerWake, .closerClose]).panic = none ∧
    (run NewAsync [.cancel, .workerReturn, .closerWake, .closerClose,
        .log format info now, .senderPanic 0]).panic = some "send on closed channel" ∧
    (run NewAsync [.cancel, .workerReturn, .closerWake,
        .log format info now, .closerClose, .senderPanic 0]).panic
      = some "send on closed channel" := by
  refine ⟨by decide, by decide, ?_, ?_⟩ <;>
    simp [run, step, NewAsync, wgDone, AsyncLogger.Log]

/-- C2: for a capture time with a four-digit year, the time is rendered as the 19 characters
`YYYY-MM-DD HH:MM:SS`, zero-padded; the line of a `Log` call is `[` + time + `] == ` + the format
applied to the arguments + a newline; and when the worker receives it, it passes exactly this
line to `Write`. -/
theorem C2_written_line (format : String) (info : List Arg) (now : Time) (s : LoggerState)
    (writeOk : Bool) (hnow : now.wellFormed) (hp : s.panic = none) (hw : s.worker = .running)
    (hc : s.inClosed = false) :
    now.Format "2006-01-02 15:04:05"
        = String.mk [Nat.digitChar (now.year.toNat / 1000),
            Nat.digitChar (now.year.toNat / 100 % 10), Nat.digitChar (now.year.toNat / 10 % 10),
            Nat.digitChar (now.year.toNat % 10), '-',
            Nat.digitChar (now.month / 10), Nat.digitChar (now.month % 10), '-',
            Nat.digitChar (now.day / 10), Nat.digitChar (now.day % 10), ' ',
            Nat.digitChar (now.hour / 10), Nat.digitChar (now.hour % 10), ':',
            Nat.digitChar (now.minute / 10), Nat.digitChar (now.minute % 10), ':',
            Nat.digitChar (now.second / 10), Nat.digitChar (now.second % 10)] ∧
      (now.Format "2006-01-02 15:04:05").length = 19 ∧
      logLine format info now
        = "[" ++ now.Format "2006-01-02 15:04:05" ++ "] == " ++ Sprintf format info ++ "\n" ∧
      (step (step s (.log format info now)) (.workerRecv s.senders.length writeOk)).output
        = s.output ++ [logLine format info now] := by
  obtain ⟨h1, h2, h3, h4, h5, h6, h7, h8, h9⟩ := hnow
  have hfmt : now.Format "2006-01-02 15:04:05"
      = String.mk [Nat.digitChar (now.year.toNat / 1000),
          Nat.digitChar (now.year.toNat / 100 % 10), Nat.digitChar (now.year.toNat / 10 % 10),
          Nat.digitChar (now.year.toNat % 10), '-',
          Nat.digitChar (now.month / 10), Nat.digitChar (now.month % 10), '-',
          Nat.digitChar (now.day / 10), Nat.digitChar (now.day % 10), ' ',
          Nat.digitChar (now.hour / 10), Nat.digitChar (now.hour % 10), ':',
          Nat.digitChar (now.minute / 10), Nat.digitChar (now.minute % 10), ':',
          Nat.digitChar (now.second / 10), Nat.digitChar (now.second % 10)] := by
    rw [Format_layout, appendInt_four _ h1 h2, appendInt_two _ (by omega),
      appendInt_two _ (by omega), appendInt_two _ (by omega), appendInt_two _ (by omega),
      appendInt_two _ (by omega)]
    rfl
  refine ⟨hfmt, ?_, Sprintf_line _ _, ?_⟩
  · rw [hfmt]
    rfl
  · rw [step_log s format info now hp]
    have hrecv := step_workerRecv (AsyncLogger.Log s format info now)
      s.senders.length (logLine format info now) writeOk hp hw hc (by simp [AsyncLogger.Log])
    rw [hrecv]
    simp [LoggerState.output, workerWrite, AsyncLogger.Log]

/-- C2 on a new logger, for a `Log` call at 2024-03-07 09:05:01. -/
theorem C2_written_line_witness :
    (step (step NewAsync (.log "task %v stored" [.int 7] ⟨2024, 3, 7, 9, 5, 1⟩))
        (.workerRecv 0 true)).output
      = ["[2024-03-07 09:05:01] == task 7 stored\n"] := by
  have h := (C2_written_line "task %v stored" [.int 7] ⟨2024, 3, 7, 9, 5, 1⟩ NewAsync true
    (by decide) rfl rfl rfl).2.2.2
  have e : logLine "task %v stored" [.int 7] ⟨2024, 3, 7, 9, 5, 1⟩
      = "[2024-03-07 09:05:01] == task 7 stored\n" := by decide
  rw [e] at h
  exact h

/-- C3: when `Write` returns an error for a record received in a reachable state, the worker
stays in its loop, the record has been passed to `Write` once and the error is reported; in
every later state the failed record still has exactly that one `Write` (it is not retried), and
as long as the context is not cancelled the worker is in its loop with the channel open and every
record it receives is passed to `Write`. -/
theorem C3_worker_survives_write_error (pre : List Action) (i : Nat) (r : String)
    (hw : (run NewAsync pre).worker = .running)
    (hi : (run NewAsync pre).senders[i]? = some ⟨r, .sending⟩) :
    (step (run NewAsync pre) (.workerRecv i false)).worker = .running ∧
      (step (run NewAsync pre) (.workerRecv i false)).panic = none ∧
      (step (run NewAsync pre) (.workerRecv i false)).writes
        = (run NewAsync pre).writes ++ [⟨r, some i, false⟩] ∧
      (step (run NewAsync pre) (.workerRecv i false)).reported
        = (run NewAsync pre).reported + 1 ∧
      ∀ acts : List Action,
        ((run (step (run NewAsync pre) (.workerRecv i false)) acts).writesOf i).length = 1 ∧
        ((run (step (run NewAsync pre) (.workerRecv i false)) acts).ctxDone = false →
          (run (step (run NewAsync pre) (.workerRecv i false)) acts).worker = .running ∧
          (run (step (run NewAsync pre) (.workerRecv i false)) acts).inClosed = false ∧
          ∀ (j : Nat) (r' : String) (ok : Bool),
            (run (step (run NewAsync pre) (.workerRecv i false)) acts).senders[j]?
                = some ⟨r', .sending⟩ →
              (step (run (step (run NewAsync pre) (.workerRecv i false)) acts)
                  (.workerRecv j ok)).writes
                = (run (step (run NewAsync pre) (.workerRecv i false)) acts).writes
                    ++ [⟨r', some j, ok⟩]) := by
  have hinv := Inv_reachable pre
  have hp := hinv.no_panic_of_running hw
  have hc := hinv.open_of_running hw
  have hstep := step_workerRecv (run NewAsync pre) i r false hp hw hc hi
  refine ⟨by rw [hstep]; exact hw, by rw [hstep]; exact hp, by rw [hstep]; rfl,
    by rw [hstep]; rfl, fun acts => ?_⟩
  have hreach : run (step (run NewAsync pre) (.workerRecv i false)) acts
      = run NewAsync (pre ++ Action.workerRecv i false :: acts) := by
    rw [run_append, run_cons]
  have hinv2 : Inv (run (step (run NewAsync pre) (.workerRecv i false)) acts) := by
    rw [hreach]; exact Inv_reachable _
  refine ⟨?_, fun hlive => ?_⟩
  · have hle := hinv2.writesOf_le_one i
    have hpos : 0 < ((run (step (run NewAsync pre) (.workerRecv i false)) acts).writesOf
        i).length := by
      obtain ⟨more, hmore⟩ := run_writes acts (step (run NewAsync pre) (.workerRecv i false))
      rw [List.length_pos_iff_exists_mem]
      refine ⟨⟨r, some i, false⟩, ?_⟩
      unfold LoggerState.writesOf
      rw [hmore, hstep]
      simp [workerWrite]
    omega
  · have hw2 := hinv2.live_running hlive
    have hc2 := hinv2.open_of_running hw2
    have hp2 := hinv2.no_panic_of_running hw2
    refine ⟨hw2, hc2, fun j r' ok hj => ?_⟩
    rw [step_workerRecv _ j r' ok hp2 hw2 hc2 hj]
    rfl

/-- C3 on a new logger: the first of two records fails to be written, the second is written. -/
theorem C3_worker_survives_write_error_witness :
    (step (step (run NewAsync [.log "a" [] Time.zero, .log "b" [] Time.zero])
        (.workerRecv 0 false)) (.workerRecv 1 true)).writes
      = [⟨logLine "a" [] Time.zero, some 0, false⟩,
          ⟨logLine "b" [] Time.zero, some 1, true⟩] :=
  ((C3_worker_survives_write_error [.log "a" [] Time.zero, .log "b" [] Time.zero] 0
      (logLine "a" [] Time.zero) (by decide) (by decide)).2.2.2.2 []).2 (by decide) |>.2.2
    1 (logLine "b" [] Time.zero) true (by decide)

/-- C4, as stated, fails: two `Log` calls made one after the other, `A` then `B`; the worker
receives from the goroutine of the second call first, and the lines are written `B`, `A`. -/
theorem C4_lines_out_of_call_order :
    (run NewAsync [.log "A" [] ⟨2024, 3, 7, 9, 5, 1⟩, .log "B" [] ⟨2024, 3, 7, 9, 5, 2⟩,
        .workerRecv 1 true, .workerRecv 0 true]).submitted
      = ["[2024-03-07 09:05:01] == A\n", "[2024-03-07 09:05:02] == B\n"] ∧
    (run NewAsync [.log "A" [] ⟨2024, 3, 7, 9, 5, 1⟩, .log "B" [] ⟨2024, 3, 7, 9, 5, 2⟩,
        .workerRecv 1 true, .workerRecv 0 true]).output
      = ["[2024-03-07 09:05:02] == B\n", "[2024-03-07 09:05:01] == A\n"] ∧
    ¬ (run NewAsync [.log "A" [] ⟨2024, 3, 7, 9, 5, 1⟩, .log "B" [] ⟨2024, 3, 7, 9, 5, 2⟩,
        .workerRecv 1 true, .workerRecv 0 true]).inCallOrder := by
  decide

/-- C4, amended: whatever happened before a `Log` call and whatever happens after it, the lines
written before the call stay at the head of the output and none of them is the line of this
call, so its line is written after them. -/
theorem C4_line_written_after_earlier_lines (pre post : List Action) (format : String)
    (info : List Arg) (now : Time) :
    (∃ more, (run (step (run NewAsync pre) (.log format info now)) post).writes
        = (run NewAsync pre).writes ++ more) ∧
      ∀ w ∈ (run NewAsync pre).writes, w.src ≠ some (run NewAsync pre).senders.length := by
  refine ⟨?_, fun w hw hsrc => ?_⟩
  · obtain ⟨m1, h1⟩ := step_writes (run NewAsync pre) (.log format info now)
    obtain ⟨m2, h2⟩ := run_writes post (step (run NewAsync pre) (.log format info now))
    exact ⟨m1 ++ m2, by rw [h2, h1, List.append_assoc]⟩
  · obtain ⟨i, pc, h1, h2, _⟩ := (Inv_reachable pre).src_sender w hw
    rw [h1] at hsrc
    have := get?_lt h2
    simp only [Option.some.injEq] at hsrc
    omega

/-- C5, as stated, fails: a record is logged, then the context is cancelled and the worker takes
the cancellation case of its `select`; the record is not written then, and never afterwards. -/
theorem C5_record_lost_on_cancel :
    (run NewAsync [.log "x" [] ⟨2024, 3, 7, 9, 5, 1⟩, .cancel, .workerReturn]).submitted
      = ["[2024-03-07 09:05:01] == x\n"] ∧
    (run NewAsync [.log "x" [] ⟨2024, 3, 7, 9, 5, 1⟩, .cancel, .workerReturn]).panic = none ∧
    ∀ more : List Action,
      (run (run NewAsync [.log "x" [] ⟨2024, 3, 7, 9, 5, 1⟩, .cancel, .workerReturn])
        more).output = [] := by
  refine ⟨by decide, by decide, fun more => ?_⟩
  have h := (run_exited more
    (run NewAsync [.log "x" [] ⟨2024, 3, 7, 9, 5, 1⟩, .cancel, .workerReturn]) (by decide)).2
  unfold LoggerState.output
  rw [h]
  decide

/-- C5, amended: in every reachable state, the line of each `Log` call whose goroutine is past
its send (the worker has received it) has been passed to `Write` exactly once, unmodified, and is
in the output stream when that `Write` returned no error; a line still waiting to be sent has had
no `Write`.  When no goroutine is waiting to send, the `Write` calls carry exactly the submitted
lines, each once, and so does the output stream when no `Write` failed.  Once the worker has
returned no step writes: the `Write` calls stay as they are, and a line waiting to be sent then
never gets a `Write`. -/
theorem C5_received_records_are_written (acts : List Action) :
    (∀ (i : Nat) (r : String) (pc : SenderPc),
        (run NewAsync acts).senders[i]? = some ⟨r, pc⟩ → pc ≠ .sending →
        ∃ ok, (run NewAsync acts).writesOf i = [⟨r, some i, ok⟩] ∧
          (ok = true → r ∈ (run NewAsync acts).delivered)) ∧
      (∀ (i : Nat) (r : String),
        (run NewAsync acts).senders[i]? = some ⟨r, .sending⟩ →
        (run NewAsync acts).writesOf i = []) ∧
      ((∀ x ∈ (run NewAsync acts).senders, x.pc ≠ .sending) →
        (run NewAsync acts).output.Perm (run NewAsync acts).submitted ∧
          ((∀ w ∈ (run NewAsync acts).writes, w.ok = true) →
            (run NewAsync acts).delivered.Perm (run NewAsync acts).submitted)) ∧
      ((run NewAsync acts).worker = .exited →
        ∀ more : List Action,
          (run (run NewAsync acts) more).writes = (run NewAsync acts).writes ∧
          (run (run NewAsync acts) more).output = (run NewAsync acts).output ∧
          ∀ (i : Nat) (r : String),
            (run NewAsync acts).senders[i]? = some ⟨r, .sending⟩ →
            (run (run NewAsync acts) more).writesOf i = []) := by
  have hinv := Inv_reachable acts
  refine ⟨fun i r pc hi hpc => ?_, fun i r hi => hinv.writesOf_pending i r hi,
    fun hall => ⟨hinv.output_perm hall, fun hok => ?_⟩, fun hex more => ?_⟩
  · obtain ⟨ok, hok⟩ := hinv.writesOf_received i r pc hi hpc
    refine ⟨ok, hok, fun htrue => ?_⟩
    have hmem : (⟨r, some i, ok⟩ : WriteCall) ∈ (run NewAsync acts).writesOf i := by
      rw [hok]
      exact List.mem_singleton.2 rfl
    unfold LoggerState.writesOf at hmem
    unfold LoggerState.delivered
    rw [List.mem_map]
    refine ⟨⟨r, some i, ok⟩, ?_, rfl⟩
    rw [List.mem_filter]
    exact ⟨(List.mem_filter.1 hmem).1, htrue⟩
  · rw [delivered_eq_output _ hok]
    exact hinv.output_perm hall
  · have hw := (run_exited more _ hex).2
    refine ⟨hw, ?_, fun i r hi => ?_⟩
    · unfold LoggerState.output
      rw [hw]
    · have := hinv.writesOf_pending i r hi
      unfold LoggerState.writesOf at this ⊢
      rw [hw]
      exact this

/-- C5 amended, on a run where two records are logged, the second is received and written, and
the worker then returns on cancellation: the second record has its one `Write`. -/
theorem C5_received_records_are_written_witness :
    ∃ ok, (run NewAsync [.log "a" [] Time.zero, .log "b" [] Time.zero, .workerRecv 1 true,
        .cancel, .workerReturn]).writesOf 1 = [⟨logLine "b" [] Time.zero, some 1, ok⟩] ∧
      (ok = true → logLine "b" [] Time.zero ∈
        (run NewAsync [.log "a" [] Time.zero, .log "b" [] Time.zero, .workerRecv 1 true,
          .cancel, .workerReturn]).delivered) :=
  (C5_received_records_are_written [.log "a" [] Time.zero, .log "b" [] Time.zero,
    .workerRecv 1 true, .cancel, .workerReturn]).1 1 (logLine "b" [] Time.zero) .sent
    (by decide) (by decide)

/-- C6: in every execution, the records written are, as a multiset, contained in the multiset of
the records submitted by `Log` calls, and no `Log` call has more than one `Write`. -/
theorem C6_no_double_delivery (acts : List Action) :
    (Multiset.ofList (run NewAsync acts).output
        ≤ Multiset.ofList (run NewAsync acts).submitted) ∧
      ∀ i : Nat, ((run NewAsync acts).writesOf i).length ≤ 1 := by
  refine ⟨?_, fun i => ?_⟩
  · exact (Inv_reachable acts).output_subperm
  · exact (Inv_reachable acts).writesOf_le_one i

/-! ## Storage: the claims -/

/-- C7 (the code departs from it): after any sequence of `Store` calls, `GetByTaskId` called with
the id equal to the number of stored tasks passes the guard `TaskId > st.idCounter` and panics
in `st.tasks[TaskId]` with an index out of range, instead of returning the "nonexistent id"
error; on a new storage this happens for id 0. -/
theorem C7_GetByTaskId_panics_at_counter :
    (∀ ts : List (Task × Time),
      (TaskStorage.GetByTaskId (storeAll ts) ts.length).2
        = .panicked (Sprintf "runtime error: index out of range [%d] with length %d"
            [.int ts.length, .int ts.length])) ∧
    (TaskStorage.GetByTaskId NewTaskStorage 0).2
      = .panicked "runtime error: index out of range [0] with length 0" := by
  refine ⟨fun ts => ?_, by decide⟩
  have hc : (storeAll ts).idCounter = (ts.length : Int) := by
    rw [storeAll_counterOk ts, storeAll_tasks_length]
  have hg : (storeAll ts).tasks[ts.length]? = none :=
    List.getElem?_eq_none (le_of_eq (storeAll_tasks_length ts))
  unfold TaskStorage.GetByTaskId
  rw [if_neg (by rw [hc]; omega)]
  simp only [Int.toNat_ofNat, hg, storeAll_tasks_length]

/-- C8: starting from a new storage, in any sequence of calls the `Store` calls return, in order,
the ids 0, 1, 2, ... each with a nil error; these ids are pairwise distinct. -/
theorem C8_Store_returns_consecutive_ids (ops : List StorageOp) :
    storeResults (runOps NewTaskStorage ops).2
        = (List.range (storeResults (runOps NewTaskStorage ops).2).length).map
            (fun k : Nat => ((k : Int), (none : Option String))) ∧
      ((storeResults (runOps NewTaskStorage ops).2).map Prod.fst).Nodup := by
  have key : ∀ (ops : List StorageOp) (st : TaskStorage),
      storeResults (runOps st ops).2
        = (List.range' st.tasks.length (storeResults (runOps st ops).2).length).map
            (fun k : Nat => ((k : Int), (none : Option String))) := by
    intro ops
    induction ops with
    | nil => intro st; simp [runOps, storeResults]
    | cons op ops ih =>
      intro st
      have ih' := ih (applyOp st op).1
      cases op with
      | store task now =>
        simp only [runOps, applyOp, storeResults, List.filterMap_cons, Store_result,
          List.length_cons, List.range'_succ, List.map_cons] at ih' ⊢
        congr 1
        simpa [storeResults] using ih'
      | getAll filter =>
        simpa [runOps, applyOp, storeResults] using ih'
      | getByTaskId TaskId =>
        simpa [runOps, applyOp, storeResults] using ih'
  have h := key ops NewTaskStorage
  have h0 : NewTaskStorage.tasks.length = 0 := rfl
  rw [h0] at h
  rw [List.range_eq_range']
  refine ⟨h, ?_⟩
  rw [h, List.map_map]
  refine List.Nodup.map ?_ (List.nodup_range' _ _)
  intro a b hab
  simpa using hab

/-- C9: in a state reached from a new storage by any calls, if `Store(t)` returns `id`, then it
returns a nil error, and `GetByTaskId(id)` called after any further calls returns a nil error and
the task `t` with `Id` set to `id` (and `CreatedAt` to the time of the `Store`), so with `t`'s
`Name`, `Description` and `Status`. -/
theorem C9_GetByTaskId_after_Store (ops more : List StorageOp) (t : Task) (now : Time) :
    ((runOps NewTaskStorage ops).1.Store t now).2.2 = none ∧
      ((runOps ((runOps NewTaskStorage ops).1.Store t now).1 more).1.GetByTaskId
          ((runOps NewTaskStorage ops).1.Store t now).2.1).2
        = .returned
            (some { t with Id := ((runOps NewTaskStorage ops).1.Store t now).2.1,
                           CreatedAt := now }, none) := by
  refine ⟨rfl, ?_⟩
  generalize hst : (runOps NewTaskStorage ops).1 = st
  have hok : counterOk st := hst ▸ counterOk_runOps ops _ counterOk_new
  have hok1 : counterOk (TaskStorage.Store st t now).1 := counterOk_applyOp st (.store t now) hok
  have hok2 := counterOk_runOps more _ hok1
  obtain ⟨extra, hex⟩ := runOps_tasks more (TaskStorage.Store st t now).1
  simp only [Store_result]
  unfold TaskStorage.GetByTaskId
  have hlen : (runOps (TaskStorage.Store st t now).1 more).1.tasks.length
      = st.tasks.length + 1 + extra.length := by
    rw [hex]; simp; omega
  rw [if_neg (by rw [hok2, hlen]; push_cast; omega)]
  have hget : (runOps (TaskStorage.Store st t now).1 more).1.tasks[(st.tasks.length : Int).toNat]?
      = some { t with Id := (st.tasks.length : Int), CreatedAt := now } := by
    rw [hex, Store_tasks, Int.toNat_ofNat, List.append_assoc,
      List.getElem?_append_right (le_refl _)]
    simp
  simp only [hget]

/-- C10: for every storage state and filter, `GetAll` returns a nil error and leaves the storage
as it is; with an empty filter status it returns all stored tasks in insertion order, otherwise
exactly the stored tasks whose `Status` equals the filter's, in insertion order; a (non-empty)
filter status that no stored task has yields the empty list. -/
theorem C10_GetAll_filters (st : TaskStorage) (filter : Filter) :
    (TaskStorage.GetAll st filter).1 = st ∧ (TaskStorage.GetAll st filter).2.2 = none ∧
      (filter.Status = "" → (TaskStorage.GetAll st filter).2.1 = st.tasks) ∧
      (filter.Status ≠ "" →
        (TaskStorage.GetAll st filter).2.1
          = st.tasks.filter (fun task => task.Status = filter.Status)) ∧
      (filter.Status ≠ "" → (∀ task ∈ st.tasks, task.Status ≠ filter.Status) →
        (TaskStorage.GetAll st filter).2.1 = []) := by
  have hloop : (TaskStorage.GetAll st filter).2.1
      = st.tasks.filter
          (fun task => decide (filter.Status = "" ∨ task.Status = filter.Status)) := by
    simp only [TaskStorage.GetAll]
    rw [GetAll_loop (fun task => filter.Status = "" ∨ task.Status = filter.Status)]
    simp
  refine ⟨rfl, rfl, ?_, ?_, ?_⟩
  · intro h
    rw [hloop]
    simp [h]
  · intro h
    rw [hloop]
    simp [h]
  · intro h hall
    rw [hloop, List.filter_eq_nil_iff]
    intro task hmem
    simp [h, hall task hmem]

/-- C10 at a concrete storage: four stored tasks, filters "created", "" and "archived". -/
theorem C10_GetAll_filters_witness :
    (TaskStorage.GetAll (storeAll [(⟨0, "created", "a", "", Time.zero⟩, Time.zero),
        (⟨0, "done", "b", "", Time.zero⟩, Time.zero)]) ⟨"archived"⟩).2.1 = [] :=
  (C10_GetAll_filters (storeAll [(⟨0, "created", "a", "", Time.zero⟩, Time.zero),
        (⟨0, "done", "b", "", Time.zero⟩, Time.zero)]) ⟨"archived"⟩).2.2.2.2
    (by decide) (by decide)

/-! ## Validation, usecase and handler: the claims -/

/-- C11: `ValidateTask` returns nil exactly when the task's `Id` is not negative and its `Status`
is one of "created", "inProgress", "done"; `Name`, `Description` and `CreatedAt` have no
influence on the result. -/
theorem C11_ValidateTask_nil_iff (task : Task) :
    (ValidateTask task = none ↔
      0 ≤ task.Id ∧ (task.Status = "created" ∨ task.Status = "inProgress" ∨
        task.Status = "done")) ∧
      ∀ (name description : String) (createdAt : Time),
        ValidateTask { task with Name := name, Description := description,
                                 CreatedAt := createdAt } = ValidateTask task :=
  ⟨ValidateTask_eq_none_iff task, fun _ _ _ => rfl⟩

/-- C12: `ValidateFilter` returns nil exactly when the filter's `Status` is one of "created",
"inProgress", "done"; every other status is rejected with the error "invalid status in filter:
unknown type", and so is the empty status of `EmptyFilter`. -/
theorem C12_ValidateFilter_nil_iff (filter : Filter) :
    (ValidateFilter filter = none ↔
      (filter.Status = "created" ∨ filter.Status = "inProgress" ∨ filter.Status = "done")) ∧
      (¬ (filter.Status = "created" ∨ filter.Status = "inProgress" ∨ filter.Status = "done") →
        ValidateFilter filter = some "invalid status in filter: unknown type") ∧
      ValidateFilter EmptyFilter = some "invalid status in filter: unknown type" := by
  refine ⟨ValidateFilter_eq_none_iff filter, fun h => ?_, by decide⟩
  have hne : ValidateFilter filter ≠ none := fun e => h ((ValidateFilter_eq_none_iff filter).1 e)
  unfold ValidateFilter at hne ⊢
  split_ifs at hne ⊢ with h3
  · rfl
  · exact absurd rfl hne

/-- C12 on the filter with the status "archived". -/
theorem C12_ValidateFilter_nil_iff_witness :
    ValidateFilter { Status := "archived" } = some "invalid status in filter: unknown type" :=
  (C12_ValidateFilter_nil_iff { Status := "archived" }).2.1 (by decide)

/-- C13: in a state reached from a new storage, after a `Store` that returned `id` and any
further calls, a later `Store` appends one task to the list and changes nothing else of it: the
number of stored tasks grows by exactly one, and `GetByTaskId(id)` returns the same stored task,
with a nil error, before and after the later `Store`. -/
theorem C13_Store_appends (ops more : List StorageOp) (t later : Task) (now now' : Time) :
    (∃ x, ((runOps ((runOps NewTaskStorage ops).1.Store t now).1 more).1.Store later now').1.tasks
        = (runOps ((runOps NewTaskStorage ops).1.Store t now).1 more).1.tasks ++ [x]) ∧
      ((runOps ((runOps NewTaskStorage ops).1.Store t now).1 more).1.Store later
          now').1.tasks.length
        = (runOps ((runOps NewTaskStorage ops).1.Store t now).1 more).1.tasks.length + 1 ∧
      ((runOps ((runOps NewTaskStorage ops).1.Store t now).1 more).1.GetByTaskId
          ((runOps NewTaskStorage ops).1.Store t now).2.1).2
        = .returned (some { t with Id := ((runOps NewTaskStorage ops).1.Store t now).2.1,
                                   CreatedAt := now }, none) ∧
      (((runOps ((runOps NewTaskStorage ops).1.Store t now).1 more).1.Store later
          now').1.GetByTaskId ((runOps NewTaskStorage ops).1.Store t now).2.1).2
        = ((runOps ((runOps NewTaskStorage ops).1.Store t now).1 more).1.GetByTaskId
            ((runOps NewTaskStorage ops).1.Store t now).2.1).2 := by
  generalize hst : (runOps NewTaskStorage ops).1 = st
  have hok : counterOk st := hst ▸ counterOk_runOps ops _ counterOk_new
  have hok1 : counterOk (st.Store t now).1 := counterOk_applyOp st (.store t now) hok
  have hok2 := counterOk_runOps more _ hok1
  obtain ⟨extra, hex⟩ := runOps_tasks more (st.Store t now).1
  generalize hst1 : (runOps (st.Store t now).1 more).1 = st1 at hok2 hex
  have hok3 : counterOk (st1.Store later now').1 := counterOk_applyOp st1 (.store later now') hok2
  have hget1 : st1.tasks[st.tasks.length]?
      = some { t with Id := (st.tasks.length : Int), CreatedAt := now } := by
    rw [hex, Store_tasks, List.append_assoc, List.getElem?_append_right (le_refl _)]
    simp
  have hget2 : (st1.Store later now').1.tasks[st.tasks.length]?
      = some { t with Id := (st.tasks.length : Int), CreatedAt := now } := by
    rw [Store_tasks, List.getElem?_append_left (get?_lt hget1)]
    exact hget1
  have h1 := GetByTaskId_of_stored st1 st.tasks.length _ hok2 hget1
  have h2 := GetByTaskId_of_stored (st1.Store later now').1 st.tasks.length _ hok3 hget2
  refine ⟨⟨_, Store_tasks st1 later now'⟩, by simp, ?_, ?_⟩
  · simp only [Store_result]
    rw [h1]
  · simp only [Store_result]
    rw [h1, h2]

/-- C14: for a request whose `Status` is none of "created", "inProgress", "done",
`TaskUsecase.Store` returns the id -1 and an error whose message is "TaskUsecase: couldn't store
the task: " followed by the message of `ValidateTask` (for a non-empty status, "invalid status in
task: unknown type"), and the storage's `Store` is not called: the storage is in the state it was
in, and on a storage that records its calls no call is recorded. -/
theorem C14_Store_rejects_invalid_status {σ : Type} (tu : TaskUsecase σ) (s : σ)
    (request : PostTaskRequest)
    (h : ¬ (request.Status = "created" ∨ request.Status = "inProgress" ∨
      request.Status = "done")) :
    (∃ msg, ValidateTask (PostTaskRequestToTask request) = some msg ∧
        tu.Store s request
          = (s, .returned (-1, some ("TaskUsecase: couldn't store the task: " ++ msg))) ∧
        (request.Status ≠ "" → msg = "invalid status in task: unknown type")) ∧
      ∀ log : List StorageCall,
        ((TaskUsecase.mk tu.taskStorage.recorded).Store (s, log) request).1 = (s, log) := by
  have hv := ValidateTask_request_invalid request h
  refine ⟨⟨_, hv, TaskUsecase_Store_rejected tu s request _ hv, fun hne => if_neg hne⟩,
    fun log => ?_⟩
  rw [TaskUsecase_Store_rejected _ _ request _ hv]

/-- C14 on the real storage, new, for a request with the status "invalid-status". -/
theorem C14_Store_rejects_invalid_status_witness :
    ((TaskUsecase.mk (TaskStorage.impl Time.zero).recorded).Store (NewTaskStorage, [])
        ⟨"invalid-status", "Test Task", "Test Description"⟩).1 = (NewTaskStorage, []) :=
  (C14_Store_rejects_invalid_status (TaskUsecase.mk (TaskStorage.impl Time.zero)) NewTaskStorage
    ⟨"invalid-status", "Test Task", "Test Description"⟩ (by decide)).2 []

/-- C15: for a request with a valid `Status`, `TaskUsecase.Store` calls the storage's `Store`
once, with a task whose `Name`, `Description` and `Status` are the request's; when the storage
returns `(id, nil)` it returns `(id, nil)`, and when the storage returns an error `e` it returns
-1 and an error with the message "TaskUsecase: couldn't store the task: " followed by the message
of `e`. -/
theorem C15_Store_delegates {σ : Type} (tu : TaskUsecase σ) (s : σ) (request : PostTaskRequest)
    (h : request.Status = "created" ∨ request.Status = "inProgress" ∨
      request.Status = "done") :
    (PostTaskRequestToTask request).Name = request.Name ∧
      (PostTaskRequestToTask request).Description = request.Description ∧
      (PostTaskRequestToTask request).Status = request.Status ∧
      (tu.Store s request).1 = (tu.taskStorage.Store s (PostTaskRequestToTask request)).1 ∧
      (tu.Store s request).2
        = (match (tu.taskStorage.Store s (PostTaskRequestToTask request)).2 with
          | .returned (_, some e) =>
            .returned (-1, some ("TaskUsecase: couldn't store the task: " ++ e))
          | .returned (id, none) => .returned (id, none)
          | .panicked m => .panicked m) ∧
      ∀ log : List StorageCall,
        ((TaskUsecase.mk tu.taskStorage.recorded).Store (s, log) request).1.2
          = log ++ [.store (PostTaskRequestToTask request)] := by
  have hv := ValidateTask_request_valid request h
  refine ⟨rfl, rfl, rfl, ?_, ?_, fun log => ?_⟩
  · rw [TaskUsecase_Store_accepted tu s request hv]
  · rw [TaskUsecase_Store_accepted tu s request hv]
  · rw [TaskUsecase_Store_accepted _ _ request hv]
    rfl

/-- C15 on the real storage, new: the request is stored under the id 0. -/
theorem C15_Store_delegates_witness :
    ((TaskUsecase.mk (TaskStorage.impl Time.zero)).Store NewTaskStorage
        ⟨"created", "Test Task", "Test Description"⟩).2
      = .returned (0, none) :=
  (C15_Store_delegates (TaskUsecase.mk (TaskStorage.impl Time.zero)) NewTaskStorage
    ⟨"created", "Test Task", "Test Description"⟩ (by decide)).2.2.2.2.1

/-- C16: `TaskUsecase.GetAll` calls the storage's `GetAll` once, with the filter it was given;
when the storage returns the tasks `ts` (and a nil error) it returns the response with
`Tasks = ts` and `Amount` the length of `ts`, and when the storage returns an error `e` it returns
the zero response and an error with the message "TaskUsecase: couldn't get all the tasks: "
followed by the message of `e`. -/
theorem C16_GetAll_delegates {σ : Type} (tu : TaskUsecase σ) (s : σ) (filter : Filter) :
    (tu.GetAll s filter).1 = (tu.taskStorage.GetAll s filter).1 ∧
      (tu.GetAll s filter).2
        = (match (tu.taskStorage.GetAll s filter).2 with
          | .returned (_, some e) =>
            .returned ({ Amount := 0, Tasks := [] },
              some ("TaskUsecase: couldn't get all the tasks: " ++ e))
          | .returned (ts, none) => .returned ({ Amount := (ts.length : Int), Tasks := ts }, none)
          | .panicked m => .panicked m) ∧
      ∀ log : List StorageCall,
        ((TaskUsecase.mk tu.taskStorage.recorded).GetAll (s, log) filter).1.2
          = log ++ [.getAll filter] := by
  refine ⟨?_, ?_, fun log => ?_⟩
  · rw [TaskUsecase_GetAll_eq]
  · rw [TaskUsecase_GetAll_eq]
    rfl
  · rw [TaskUsecase_GetAll_eq]
    rfl

/-- C17: `r` being the request decoded from the body, `HandlePostTask` responds 400 with the
error "invalid data in task" and does not call the usecase when `ValidateTask` rejects the task
built from `r`; otherwise it calls the usecase's `Store` with `r` and responds 500 with the error
"failed to store task" when that returns an error, 200 with the returned id when it does not. -/
theorem C17_HandlePostTask_responses {σ : Type} (th : TaskHandler σ) (s : σ)
    (body : Option Json) :
    (ValidateTask (Task.mk 0 (Decode body).1.Status (Decode body).1.Name
          (Decode body).1.Description Time.zero) ≠ none →
        (th.HandlePostTask s body).response
            = .returned ⟨"application/json", 400, .error "invalid data in task"⟩ ∧
          (th.HandlePostTask s body).usecase = s ∧
          ∀ log : List UsecaseCall,
            ((TaskHandler.mk th.taskUsecase.recorded).HandlePostTask (s, log) body).usecase
              = (s, log)) ∧
      (ValidateTask (Task.mk 0 (Decode body).1.Status (Decode body).1.Name
          (Decode body).1.Description Time.zero) = none →
        (th.HandlePostTask s body).usecase = (th.taskUsecase.Store s (Decode body).1).1 ∧
          (th.HandlePostTask s body).response
            = (match (th.taskUsecase.Store s (Decode body).1).2 with
              | .returned (_, some _) =>
                .returned ⟨"application/json", 500, .error "failed to store task"⟩
              | .returned (id, none) => .returned ⟨"application/json", 200, .id id⟩
              | .panicked m => .panicked m) ∧
          ∀ log : List UsecaseCall,
            ((TaskHandler.mk th.taskUsecase.recorded).HandlePostTask (s, log)
                body).usecase.2
              = log ++ [.store (Decode body).1]) := by
  refine ⟨fun h => ⟨(HandlePostTask_rejected th s body h).2,
      (HandlePostTask_rejected th s body h).1,
      fun log => (HandlePostTask_rejected _ (s, log) body h).1⟩,
    fun h => ⟨(HandlePostTask_accepted th s body h).1, (HandlePostTask_accepted th s body h).2,
      fun log => ?_⟩⟩
  rw [(HandlePostTask_accepted _ (s, log) body h).1]
  rfl

/-- C17 on the whole service, new, for the body `status: "done", name: "n"`: the response is 200
with the id 0. -/
theorem C17_HandlePostTask_responses_witness :
    ((TaskHandler.mk (TaskUsecase.mk (TaskStorage.impl Time.zero)).impl).HandlePostTask
        NewTaskStorage
        (some (.object [("status", .string "done"), ("name", .string "n")]))).response
      = .returned ⟨"application/json", 200, .id 0⟩ := by
  have h := ((C17_HandlePostTask_responses
    (TaskHandler.mk (TaskUsecase.mk (TaskStorage.impl Time.zero)).impl) NewTaskStorage
    (some (.object [("status", .string "done"), ("name", .string "n")]))).2 (by decide)).2.1
  rw [h]
  decide

/-- C18 (the code departs from it): the body `status: "created", name: 123` is not the JSON of a
`PostTaskRequest`, and decoding it returns an error (the number cannot be stored in `name`); the
handler does not look at that error, the decoder has stored the status, and on the whole service
the handler calls the usecase's `Store` and responds 200 with the id of the stored task. -/
theorem C18_decode_error_not_checked :
    (Decode (some (.object [("status", .string "created"), ("name", .number "123")]))).2
        = some ("json: cannot unmarshal number into Go struct field PostTaskRequest.name" ++
            " of type string") ∧
    ((TaskHandler.mk (TaskUsecase.mk (TaskStorage.impl Time.zero)).impl.recorded).HandlePostTask
        (NewTaskStorage, [])
        (some (.object [("status", .string "created"), ("name", .number "123")]))).response
      = .returned ⟨"application/json", 200, .id 0⟩ ∧
    ((TaskHandler.mk (TaskUsecase.mk (TaskStorage.impl Time.zero)).impl.recorded).HandlePostTask
        (NewTaskStorage, [])
        (some (.object [("status", .string "created"), ("name", .number "123")]))).usecase.2
      = [.store ⟨"created", "", ""⟩] ∧
    ((TaskHandler.mk (TaskUsecase.mk (TaskStorage.impl Time.zero)).impl.recorded).HandlePostTask
        (NewTaskStorage, [])
        (some (.object [("status", .string "created"), ("name", .number "123")]))).usecase.1.tasks
      = [⟨0, "created", "", "", Time.zero⟩] := by
  decide

/-- C19: `p` being the value of the query parameter "status" (empty when absent),
`HandleGetAllTasks` calls the usecase's `GetAll` with the empty filter when `p` is empty and with
the status `p` when `p` is "created", "inProgress" or "done"; it then responds 500 with the error
"failed to retrieve tasks" when `GetAll` returns an error and 200 with the usecase's response when
it does not.  For any other `p` it responds 400 with the error "invalid task status in filter"
and does not call the usecase. -/
theorem C19_HandleGetAllTasks_responses {σ : Type} (th : TaskHandler σ) (s : σ)
    (queryParams : Values) :
    (queryParams.Get "status" = "" →
        (th.HandleGetAllTasks s queryParams).usecase = (th.taskUsecase.GetAll s EmptyFilter).1 ∧
          (th.HandleGetAllTasks s queryParams).response
            = (match (th.taskUsecase.GetAll s EmptyFilter).2 with
              | .returned (_, some _) =>
                .returned ⟨"application/json", 500, .error "failed to retrieve tasks"⟩
              | .returned (r, none) => .returned ⟨"application/json", 200, .allTasks r⟩
              | .panicked m => .panicked m) ∧
          ∀ log : List UsecaseCall,
            ((TaskHandler.mk th.taskUsecase.recorded).HandleGetAllTasks (s, log)
                queryParams).usecase.2
              = log ++ [.getAll { Status := "" }]) ∧
      ((queryParams.Get "status" = "created" ∨ queryParams.Get "status" = "inProgress" ∨
          queryParams.Get "status" = "done") →
        (th.HandleGetAllTasks s queryParams).usecase
            = (th.taskUsecase.GetAll s { Status := queryParams.Get "status" }).1 ∧
          (th.HandleGetAllTasks s queryParams).response
            = (match (th.taskUsecase.GetAll s { Status := queryParams.Get "status" }).2 with
              | .returned (_, some _) =>
                .returned ⟨"application/json", 500, .error "failed to retrieve tasks"⟩
              | .returned (r, none) => .returned ⟨"application/json", 200, .allTasks r⟩
              | .panicked m => .panicked m) ∧
          ∀ log : List UsecaseCall,
            ((TaskHandler.mk th.taskUsecase.recorded).HandleGetAllTasks (s, log)
                queryParams).usecase.2
              = log ++ [.getAll { Status := queryParams.Get "status" }]) ∧
      (queryParams.Get "status" ≠ "" →
        ¬ (queryParams.Get "status" = "created" ∨ queryParams.Get "status" = "inProgress" ∨
          queryParams.Get "status" = "done") →
        (th.HandleGetAllTasks s queryParams).response
            = .returned ⟨"application/json", 400, .error "invalid task status in filter"⟩ ∧
          (th.HandleGetAllTasks s queryParams).usecase = s ∧
          ∀ log : List UsecaseCall,
            ((TaskHandler.mk th.taskUsecase.recorded).HandleGetAllTasks (s, log)
                queryParams).usecase
              = (s, log)) := by
  refine ⟨fun he => ?_, fun hv => ?_, fun hne hv => ?_⟩
  · have h := fun {τ : Type} (th : TaskHandler τ) (s : τ) =>
      HandleGetAllTasks_called th s queryParams EmptyFilter (Or.inl ⟨he, rfl⟩)
    refine ⟨(h th s).1, (h th s).2, fun log => ?_⟩
    rw [(h _ (s, log)).1]
    rfl
  · have hne : queryParams.Get "status" ≠ "" := by
      rcases hv with hv | hv | hv <;> rw [hv] <;> decide
    have hval : ValidateFilter ⟨queryParams.Get "status"⟩ = none :=
      (ValidateFilter_eq_none_iff _).2 hv
    have h := fun {τ : Type} (th : TaskHandler τ) (s : τ) =>
      HandleGetAllTasks_called th s queryParams ⟨queryParams.Get "status"⟩
        (Or.inr ⟨hne, hval, rfl⟩)
    refine ⟨(h th s).1, (h th s).2, fun log => ?_⟩
    rw [(h _ (s, log)).1]
    rfl
  · have hval : ValidateFilter ⟨queryParams.Get "status"⟩ ≠ none := fun e =>
      hv ((ValidateFilter_eq_none_iff _).1 e)
    exact ⟨(HandleGetAllTasks_rejected th s queryParams hne hval).2,
      (HandleGetAllTasks_rejected th s queryParams hne hval).1,
      fun log => (HandleGetAllTasks_rejected _ (s, log) queryParams hne hval).1⟩

/-- C19 on the whole service with two stored tasks, for the query `status=done`. -/
theorem C19_HandleGetAllTasks_responses_witness :
    ((TaskHandler.mk (TaskUsecase.mk (TaskStorage.impl Time.zero)).impl).HandleGetAllTasks
        (storeAll [(⟨0, "created", "a", "", Time.zero⟩, Time.zero),
          (⟨0, "done", "b", "", Time.zero⟩, Time.zero)])
        [("status", ["done"])]).response
      = .returned ⟨"application/json", 200,
          .allTasks ⟨1, [⟨1, "done", "b", "", Time.zero⟩]⟩⟩ := by
  have h := ((C19_HandleGetAllTasks_responses
    (TaskHandler.mk (TaskUsecase.mk (TaskStorage.impl Time.zero)).impl)
    (storeAll [(⟨0, "created", "a", "", Time.zero⟩, Time.zero),
      (⟨0, "done", "b", "", Time.zero⟩, Time.zero)])
    [("status", ["done"])]).2.1 (by decide)).2.1
  rw [h]
  decide

/-- C20, as stated, fails: the parameter 9223372036854775808 is a decimal integer, but `Atoi`
rejects it (it is above the largest `int`), and the handler responds 400 with the error "invalid
task_id parameter" without calling the usecase. -/
theorem C20_decimal_integer_rejected :
    DecimalInt "9223372036854775808" ∧
    ((TaskHandler.mk (TaskUsecase.mk (TaskStorage.impl Time.zero)).impl.recorded).HandleGetTaskById
        (NewTaskStorage, []) "9223372036854775808").response
      = .returned ⟨"application/json", 400, .error "invalid task_id parameter"⟩ ∧
    ((TaskHandler.mk (TaskUsecase.mk (TaskStorage.impl Time.zero)).impl.recorded).HandleGetTaskById
        (NewTaskStorage, []) "9223372036854775808").usecase.2 = [] := by
  decide

/-- C20, amended: `HandleGetTaskById` responds 400 with the error "task_id wasn't provided" when
the parameter `p` is empty, and 400 with the error "invalid task_id parameter" when `p` is not
empty and is not a decimal integer in the range of `int` (an optional sign and decimal digits,
with a value from -2^63 to 2^63 - 1); in both cases the usecase is not called.  Otherwise it
calls the usecase's `GetByTaskId` with the value of `p` and responds 500 with the error "failed to
retrieve task" when that returns an error, 200 with the usecase's response when it does not. -/
theorem C20_HandleGetTaskById_responses {σ : Type} (th : TaskHandler σ) (s : σ) (p : String) :
    (p = "" →
        (th.HandleGetTaskById s p).response
            = .returned ⟨"application/json", 400, .error "task_id wasn't provided"⟩ ∧
          (th.HandleGetTaskById s p).usecase = s ∧
          ∀ log : List UsecaseCall,
            ((TaskHandler.mk th.taskUsecase.recorded).HandleGetTaskById (s, log) p).usecase
              = (s, log)) ∧
      (p ≠ "" →
        ¬ (DecimalInt p ∧ -(2 : Int) ^ 63 ≤ decimalValue p ∧ decimalValue p < (2 : Int) ^ 63) →
        (th.HandleGetTaskById s p).response
            = .returned ⟨"application/json", 400, .error "invalid task_id parameter"⟩ ∧
          (th.HandleGetTaskById s p).usecase = s ∧
          ∀ log : List UsecaseCall,
            ((TaskHandler.mk th.taskUsecase.recorded).HandleGetTaskById (s, log) p).usecase
              = (s, log)) ∧
      (DecimalInt p → -(2 : Int) ^ 63 ≤ decimalValue p → decimalValue p < (2 : Int) ^ 63 →
        (th.HandleGetTaskById s p).usecase
            = (th.taskUsecase.GetByTaskId s (decimalValue p)).1 ∧
          (th.HandleGetTaskById s p).response
            = (match (th.taskUsecase.GetByTaskId s (decimalValue p)).2 with
              | .returned (_, some _) =>
                .returned ⟨"application/json", 500, .error "failed to retrieve task"⟩
              | .returned (r, none) => .returned ⟨"application/json", 200, .task r⟩
              | .panicked m => .panicked m) ∧
          ∀ log : List UsecaseCall,
            ((TaskHandler.mk th.taskUsecase.recorded).HandleGetTaskById (s, log) p).usecase.2
              = log ++ [.getByTaskId (decimalValue p)]) := by
  refine ⟨fun he => ?_, fun hne hbad => ?_, fun hdec hlo hhi => ?_⟩
  · subst he
    exact ⟨(HandleGetTaskById_empty th s).2, (HandleGetTaskById_empty th s).1,
      fun log => (HandleGetTaskById_empty _ (s, log)).1⟩
  · have hat : Atoi p = none := by
      cases h : Atoi p with
      | none => rfl
      | some n =>
        obtain ⟨h1, h2, h3, h4⟩ := (Atoi_eq_some_iff p n).1 h
        exact absurd ⟨h1, by rw [h2]; exact h3, by rw [h2]; exact h4⟩ hbad
    exact ⟨(HandleGetTaskById_rejected th s p hne hat).2,
      (HandleGetTaskById_rejected th s p hne hat).1,
      fun log => (HandleGetTaskById_rejected _ (s, log) p hne hat).1⟩
  · have hat : Atoi p = some (decimalValue p) :=
      (Atoi_eq_some_iff p _).2 ⟨hdec, rfl, hlo, hhi⟩
    refine ⟨(HandleGetTaskById_called th s p _ hat).1,
      (HandleGetTaskById_called th s p _ hat).2, fun log => ?_⟩
    rw [(HandleGetTaskById_called _ (s, log) p _ hat).1]
    rfl

/-- C20 amended, on the whole service with two stored tasks, for the parameter "1". -/
theorem C20_HandleGetTaskById_responses_witness :
    ((TaskHandler.mk (TaskUsecase.mk (TaskStorage.impl Time.zero)).impl).HandleGetTaskById
        (storeAll [(⟨0, "created", "a", "", Time.zero⟩, Time.zero),
          (⟨0, "done", "b", "", Time.zero⟩, Time.zero)]) "1").response
      = .returned ⟨"application/json", 200, .task ⟨1, "done", "b", "", Time.zero⟩⟩ := by
  have h := ((C20_HandleGetTaskById_responses
    (TaskHandler.mk (TaskUsecase.mk (TaskStorage.impl Time.zero)).impl)
    (storeAll [(⟨0, "created", "a", "", Time.zero⟩, Time.zero),
      (⟨0, "done", "b", "", Time.zero⟩, Time.zero)]) "1").2.2
    (by decide) (by decide) (by decide)).2.1
  rw [h]
  decide

/-- C21: in every state reached from `NewTaskStorage` by `Store`, `GetAll` and `GetByTaskId`
calls, `idCounter` equals the number of stored tasks, and the task at every index `i` below that
number has `Id = i`. -/
theorem C21_counter_and_ids (ops : List StorageOp) :
    (runOps NewTaskStorage ops).1.idCounter
        = ((runOps NewTaskStorage ops).1.tasks.length : Int) ∧
      (∀ (i : Nat) (t : Task), (runOps NewTaskStorage ops).1.tasks[i]? = some t →
        t.Id = (i : Int)) ∧
      (runOps NewTaskStorage ops).1.tasks.map Task.Id
        = (List.range (runOps NewTaskStorage ops).1.tasks.length).map
            (fun i : Nat => (i : Int)) := by
  have hids := idsOk_runOps ops _ idsOk_new
  refine ⟨counterOk_runOps ops _ counterOk_new, hids, ?_⟩
  apply List.ext_getElem
  · simp
  · intro n h1 h2
    simp only [List.length_map] at h1
    simp only [List.getElem_map, List.getElem_range]
    exact hids n _ (List.getElem?_eq_getElem h1)

/-- C21 after two `Store` calls with a `GetAll` and a `GetByTaskId` between them: the task at
index 1 has `Id` 1, whatever `Id` the caller had put in it. -/
theorem C21_counter_and_ids_witness :
    (runOps NewTaskStorage [.store ⟨7, "created", "a", "", Time.zero⟩ Time.zero, .getAll ⟨""⟩,
        .getByTaskId 5, .store ⟨7, "done", "b", "", Time.zero⟩ Time.zero]).1.tasks[1]?
      = some (Task.mk 1 "done" "b" "" Time.zero) ∧
    (Task.mk 1 "done" "b" "" Time.zero).Id = ((1 : Nat) : Int) :=
  ⟨by decide,
    (C21_counter_and_ids [.store ⟨7, "created", "a", "", Time.zero⟩ Time.zero, .getAll ⟨""⟩,
      .getByTaskId 5, .store ⟨7, "done", "b", "", Time.zero⟩ Time.zero]).2.1 1
      (Task.mk 1 "done" "b" "" Time.zero) (by decide)⟩

/-- C22: on the usecase over the real storage, the task mapped from a request has `Id` 0 and the
storage's `Store` returns a nil error; `TaskUsecase.Store` returns a nil error exactly when the
request's `Status` is "created", "inProgress" or "done"; it then stores the task and returns the
number of tasks stored before the call; otherwise it returns -1 with an error and leaves the
storage as it was. -/
theorem C22_usecase_Store_on_storage (st : TaskStorage) (now : Time)
    (request : PostTaskRequest) :
    (PostTaskRequestToTask request).Id = 0 ∧
      (st.Store (PostTaskRequestToTask request) now).2.2 = none ∧
      ((∃ id, ((TaskUsecase.mk (TaskStorage.impl now)).Store st request).2
            = .returned (id, none)) ↔
        (request.Status = "created" ∨ request.Status = "inProgress" ∨
          request.Status = "done")) ∧
      ((request.Status = "created" ∨ request.Status = "inProgress" ∨
          request.Status = "done") →
        ((TaskUsecase.mk (TaskStorage.impl now)).Store st request).2
            = .returned ((st.tasks.length : Int), none) ∧
          ((TaskUsecase.mk (TaskStorage.impl now)).Store st request).1
            = (st.Store (PostTaskRequestToTask request) now).1) ∧
      (¬ (request.Status = "created" ∨ request.Status = "inProgress" ∨
          request.Status = "done") →
        ((TaskUsecase.mk (TaskStorage.impl now)).Store st request).1 = st ∧
          ∃ msg, ((TaskUsecase.mk (TaskStorage.impl now)).Store st request).2
            = .returned (-1, some msg)) := by
  refine ⟨rfl, rfl,
    ⟨fun ⟨id, hid⟩ => ?_, fun hv => ⟨_, by rw [usecase_Store_valid st now request hv]⟩⟩,
    fun hv => by rw [usecase_Store_valid st now request hv]; exact ⟨rfl, rfl⟩,
    fun hv => by rw [usecase_Store_invalid st now request hv]; exact ⟨rfl, _, rfl⟩⟩
  by_contra hv
  rw [usecase_Store_invalid st now request hv] at hid
  simp only [Outcome.returned.injEq, Prod.mk.injEq, reduceCtorEq, and_false] at hid

/-- C22 on a storage with two tasks: a request with the status "done" gets the id 2. -/
theorem C22_usecase_Store_on_storage_witness :
    ((TaskUsecase.mk (TaskStorage.impl Time.zero)).Store
        (storeAll [(⟨0, "created", "a", "", Time.zero⟩, Time.zero),
          (⟨0, "done", "b", "", Time.zero⟩, Time.zero)]) ⟨"done", "c", ""⟩).2
      = .returned (2, none) :=
  ((C22_usecase_Store_on_storage
    (storeAll [(⟨0, "created", "a", "", Time.zero⟩, Time.zero),
      (⟨0, "done", "b", "", Time.zero⟩, Time.zero)]) Time.zero ⟨"done", "c", ""⟩).2.2.2.1
    (by decide)).1

/-- C23: in every reachable state of the logger in which the context has not been cancelled, the
`WaitGroup` counter is at least 1, the worker is in its loop, the closer is still in `wg.Wait()`,
the channel `in` is open and nothing has panicked; in such a state the closer can neither get past
`wg.Wait()` nor close the channel, and no `Log` goroutine meets a closed channel. -/
theorem C23_before_cancellation (acts : List Action)
    (h : (run NewAsync acts).ctxDone = false) :
    1 ≤ (run NewAsync acts).wg ∧
      (run NewAsync acts).worker = .running ∧
      (run NewAsync acts).closer = .waiting ∧
      (run NewAsync acts).inClosed = false ∧
      (run NewAsync acts).panic = none ∧
      step (run NewAsync acts) .closerWake = run NewAsync acts ∧
      step (run NewAsync acts) .closerClose = run NewAsync acts ∧
      ∀ i : Nat, step (run NewAsync acts) (.senderPanic i) = run NewAsync acts := by
  have hinv := Inv_reachable acts
  have hw := hinv.live_running h
  have hc := hinv.open_of_running hw
  have hp := hinv.no_panic_of_running hw
  have hwg : 1 ≤ (run NewAsync acts).wg := by
    have := hinv.wg_eq
    rw [if_pos hw] at this
    omega
  have hcl : (run NewAsync acts).closer = .waiting := by
    by_contra hne
    have := hinv.closer_worker hne
    rw [hw] at this
    exact WorkerPc.noConfusion this
  refine ⟨hwg, hw, hcl, hc, hp, ?_, ?_, fun i => ?_⟩
  · unfold step
    rw [hp]
    simp only [Option.isSome_none, Bool.false_eq_true, if_false]
    rw [if_neg (fun hh => by have := hh.2; omega)]
  · unfold step
    rw [hp]
    simp only [Option.isSome_none, Bool.false_eq_true, if_false]
    rw [if_neg (by rw [hcl]; decide)]
  · unfold step
    rw [hp]
    simp only [Option.isSome_none, Bool.false_eq_true, if_false]
    rw [hc]

/-- C23 on a run of two `Log` calls, one received and finished, without cancellation. -/
theorem C23_before_cancellation_witness :
    1 ≤ (run NewAsync [.log "a" [] Time.zero, .log "b" [] Time.zero, .workerRecv 1 true,
        .senderDone 1, .closerWake, .closerClose]).wg ∧
      (run NewAsync [.log "a" [] Time.zero, .log "b" [] Time.zero, .workerRecv 1 true,
        .senderDone 1, .closerWake, .closerClose]).inClosed = false :=
  ⟨(C23_before_cancellation [.log "a" [] Time.zero, .log "b" [] Time.zero, .workerRecv 1 true,
      .senderDone 1, .closerWake, .closerClose] (by decide)).1,
    (C23_before_cancellation [.log "a" [] Time.zero, .log "b" [] Time.zero, .workerRecv 1 true,
      .senderDone 1, .closerWake, .closerClose] (by decide)).2.2.2.1⟩

/-- C24: in every storage state reached from a new `TaskStorage` through `TaskUsecase.Store`
calls only, the numbers of tasks that `GetAll` returns for the filters "created", "inProgress" and
"done" add up to the number it returns for the empty filter, which is the number of stored
tasks. -/
theorem C24_status_filters_add_up (reqs : List (PostTaskRequest × Time)) :
    ((usecaseStoreAll reqs).GetAll ⟨"created"⟩).2.1.length
        + ((usecaseStoreAll reqs).GetAll ⟨"inProgress"⟩).2.1.length
        + ((usecaseStoreAll reqs).GetAll ⟨"done"⟩).2.1.length
      = ((usecaseStoreAll reqs).GetAll ⟨""⟩).2.1.length ∧
    ((usecaseStoreAll reqs).GetAll ⟨""⟩).2.1 = (usecaseStoreAll reqs).tasks := by
  have hall : ((usecaseStoreAll reqs).GetAll ⟨""⟩).2.1 = (usecaseStoreAll reqs).tasks := by
    rw [GetAll_tasks]
    simp
  have h1 : ("created" : String) ≠ "" := by decide
  have h2 : ("inProgress" : String) ≠ "" := by decide
  have h3 : ("done" : String) ≠ "" := by decide
  refine ⟨?_, hall⟩
  rw [hall, GetAll_tasks, GetAll_tasks, GetAll_tasks]
  simp only [h1, h2, h3, false_or]
  exact filter_statuses_length _ (statusesOk_usecaseStoreAll reqs)

end LoTest
